import Mathlib

/-!
# Annotation page (`frontend/src/pages/Annotate.jsx`)

A shallow embedding of the `Annotate` React component: its state hooks become the
fields of `State`, and every event handler becomes a function on `State`.

JavaScript numbers are modelled at two levels.  The handlers and their control flow
are embedded over exact rationals: this level is faithful wherever a statement only
repeats the expressions of the source or does not depend on rounding.  For the
statements that rounding decides, the same expressions are embedded a second time
(names ending in `64`) with every arithmetic operation rounded to the nearest IEEE 754
binary64 number, ties to even.  Overflow and the non-finite values (`Infinity`, `NaN`)
that JavaScript produces for a zero divisor are outside both levels.  A handler that
can throw returns `Except JsError _`.
-/

namespace Annotate

/-! ## Data model -/

/-- A point `{ x, y }`: the value of `startPos` and of `offset`. -/
structure Pos where
  x : ℚ
  y : ℚ
  deriving DecidableEq, Repr

/-- A pixel-space box `{ x, y, width, height, class_id }` (the entries of `boxes`,
and `currentBox`). -/
structure Box where
  x : ℚ
  y : ℚ
  width : ℚ
  height : ℚ
  class_id : ℤ
  deriving DecidableEq, Repr

/-- An entry of `yoloBoxes`: `{ class_id, x_center, y_center, width, height }`. -/
structure YoloBox where
  class_id : ℤ
  x_center : ℚ
  y_center : ℚ
  width : ℚ
  height : ℚ
  deriving DecidableEq, Repr

/-- The fields of a loaded `Image` object that the component reads. -/
structure HTMLImage where
  width : ℚ
  height : ℚ
  deriving DecidableEq, Repr

/-- The fields of the `<canvas>` element that the component reads. -/
structure Canvas where
  width : ℚ
  height : ℚ
  deriving DecidableEq, Repr

/-- The result of `canvas.getBoundingClientRect()`: only `left` and `top` are read. -/
structure DOMRect where
  left : ℚ
  top : ℚ
  deriving DecidableEq, Repr

/-- The fields of a mouse event that the handlers read. -/
structure MouseEvent where
  clientX : ℚ
  clientY : ℚ
  deriving DecidableEq, Repr

/-- An entry of `images`, as returned by the annotation-images endpoint. -/
structure ImageData where
  filename : String
  path : String
  has_annotation : Bool
  deriving DecidableEq, Repr

/-- The component state: one field per `useState` hook of `Annotate` (lines 16-26).
`datasetInfo` and `loading` only drive rendering and are left out; `currentImage` is
`none` for the JavaScript `null`. -/
structure State where
  images : List ImageData
  currentIndex : ℕ
  currentImage : Option HTMLImage
  boxes : List Box
  isDrawing : Bool
  startPos : Option Pos
  currentBox : Option Box
  scale : ℚ
  offset : Pos
  deriving DecidableEq, Repr

/-- The initial values passed to the `useState` hooks. -/
def State.initial : State :=
  { images := []
    currentIndex := 0
    currentImage := none
    boxes := []
    isDrawing := false
    startPos := none
    currentBox := none
    scale := 1
    offset := { x := 0, y := 0 } }

/-- A JavaScript exception raised by a handler. -/
inductive JsError where
  | typeError
  deriving DecidableEq, Repr

/-! ## Double-precision arithmetic -/

/-- The integer nearest to `x`, the even one of the two when `x` lies halfway. -/
def roundHalfEven (x : ℚ) : ℤ :=
  if x - ⌊x⌋ < 1 / 2 then ⌊x⌋
  else if 1 / 2 < x - ⌊x⌋ then ⌊x⌋ + 1
  else if ⌊x⌋ % 2 = 0 then ⌊x⌋ else ⌊x⌋ + 1

/-- The binary exponent of the unit in the last place of the binary64 format at `q`:
53 significant bits, and never below the exponent `-1074` of the subnormal numbers. -/
def ulpExponent (q : ℚ) : ℤ :=
  max (Int.log 2 |q| - 52) (-1074)

/-- The binary64 number nearest to `q`, ties to even (overflow is not modelled). -/
def roundToDouble (q : ℚ) : ℚ :=
  roundHalfEven (q / 2 ^ ulpExponent q) * 2 ^ ulpExponent q

/-- The JavaScript `a + b` on binary64 numbers. -/
def add64 (a b : ℚ) : ℚ :=
  roundToDouble (a + b)

/-- The JavaScript `a - b` on binary64 numbers. -/
def sub64 (a b : ℚ) : ℚ :=
  roundToDouble (a - b)

/-- The JavaScript `a * b` on binary64 numbers. -/
def mul64 (a b : ℚ) : ℚ :=
  roundToDouble (a * b)

/-- The JavaScript `a / b` on binary64 numbers, for a non-zero `b`. -/
def div64 (a b : ℚ) : ℚ :=
  roundToDouble (a / b)

/-! ## Viewport: `loadImage` and the pointer mapping -/

/-- The `img.onload` callback of `loadImage` (lines 80-104): stores the image, empties
`boxes`, and, when the canvas exists, fits the image into it without upscaling and
centres it.  `Math.min(scaleX, scaleY, 1)` is `min (min scaleX scaleY) 1`. -/
def loadImage.onload (s : State) (img : HTMLImage) (canvas : Option Canvas) : State :=
  let s1 := { s with currentImage := some img, boxes := [] }
  match canvas with
  | none => s1
  | some c =>
    let maxWidth := c.width
    let maxHeight := c.height
    let scaleX := maxWidth / img.width
    let scaleY := maxHeight / img.height
    let newScale := min (min scaleX scaleY) 1
    let scaledWidth := img.width * newScale
    let scaledHeight := img.height * newScale
    { s1 with
      scale := newScale
      offset := { x := (maxWidth - scaledWidth) / 2, y := (maxHeight - scaledHeight) / 2 } }

/-- The `img.onload` callback of `loadImage` (lines 80-104) with every division,
product and difference of lines 89-99 rounded to binary64. -/
def loadImage.onload64 (s : State) (img : HTMLImage) (canvas : Option Canvas) : State :=
  let s1 := { s with currentImage := some img, boxes := [] }
  match canvas with
  | none => s1
  | some c =>
    let maxWidth := c.width
    let maxHeight := c.height
    let scaleX := div64 maxWidth img.width
    let scaleY := div64 maxHeight img.height
    let newScale := min (min scaleX scaleY) 1
    let scaledWidth := mul64 img.width newScale
    let scaledHeight := mul64 img.height newScale
    { s1 with
      scale := newScale
      offset :=
        { x := div64 (sub64 maxWidth scaledWidth) 2
          y := div64 (sub64 maxHeight scaledHeight) 2 } }

/-- The image-space point computed at the start of `handleMouseDown` (lines 179-180)
and of `handleMouseMove` (lines 194-195) from the event and the canvas rectangle. -/
def imagePoint (s : State) (rect : DOMRect) (e : MouseEvent) : Pos :=
  { x := (e.clientX - rect.left - s.offset.x) / s.scale
    y := (e.clientY - rect.top - s.offset.y) / s.scale }

/-- The canvas position at which `drawCanvas` places the image-space point `(x, y)`:
the first two arguments of `strokeRect` (lines 134-135 and 163-164). -/
def canvasPoint (s : State) (p : Pos) : Pos :=
  { x := s.offset.x + p.x * s.scale
    y := s.offset.y + p.y * s.scale }

/-- The rectangle `drawCanvas` strokes for a box (lines 133-138), as
`(x, y, width, height)` in canvas coordinates. -/
def drawCanvas.strokeRect (s : State) (box : Box) : ℚ × ℚ × ℚ × ℚ :=
  ((canvasPoint s { x := box.x, y := box.y }).x,
   (canvasPoint s { x := box.x, y := box.y }).y,
   box.width * s.scale,
   box.height * s.scale)

/-! ## Box editor: the three pointer handlers -/

/-- The handler `handleMouseDown` (lines 176-187).  The conjunction is evaluated left
to right with short-circuiting, so `currentImage.width` is only read once `x >= 0`
holds; reading it while `currentImage` is `null` throws a `TypeError`. -/
def handleMouseDown (s : State) (rect : DOMRect) (e : MouseEvent) : Except JsError State :=
  let x := (imagePoint s rect e).x
  let y := (imagePoint s rect e).y
  if x ≥ 0 then
    match s.currentImage with
    | none => .error .typeError
    | some img =>
      if x ≤ img.width ∧ y ≥ 0 ∧ y ≤ img.height then
        .ok { s with isDrawing := true, startPos := some { x := x, y := y } }
      else
        .ok s
  else
    .ok s

/-- The image-space point of lines 179-180 and 194-195 with the two subtractions and
the division rounded to binary64. -/
def imagePoint64 (s : State) (rect : DOMRect) (e : MouseEvent) : Pos :=
  { x := div64 (sub64 (sub64 e.clientX rect.left) s.offset.x) s.scale
    y := div64 (sub64 (sub64 e.clientY rect.top) s.offset.y) s.scale }

/-- The canvas position of lines 134-135 and 163-164 with the product and the sum
rounded to binary64. -/
def canvasPoint64 (s : State) (p : Pos) : Pos :=
  { x := add64 s.offset.x (mul64 p.x s.scale)
    y := add64 s.offset.y (mul64 p.y s.scale) }

/-- The handler `handleMouseDown` (lines 176-187) on the point computed in binary64;
the comparisons are exact. -/
def handleMouseDown64 (s : State) (rect : DOMRect) (e : MouseEvent) :
    Except JsError State :=
  let x := (imagePoint64 s rect e).x
  let y := (imagePoint64 s rect e).y
  if x ≥ 0 then
    match s.currentImage with
    | none => .error .typeError
    | some img =>
      if x ≤ img.width ∧ y ≥ 0 ∧ y ≤ img.height then
        .ok { s with isDrawing := true, startPos := some { x := x, y := y } }
      else
        .ok s
  else
    .ok s

/-- The handler `handleMouseMove` (lines 189-213): outside a gesture it returns at
once; inside one it clamps the pointer to the image and stores the provisional box. -/
def handleMouseMove (s : State) (rect : DOMRect) (e : MouseEvent) : State :=
  match s.isDrawing, s.startPos, s.currentImage with
  | true, some startPos, some currentImage =>
    let x := (imagePoint s rect e).x
    let y := (imagePoint s rect e).y
    let clampedX := max 0 (min x currentImage.width)
    let clampedY := max 0 (min y currentImage.height)
    let boxX := min startPos.x clampedX
    let boxY := min startPos.y clampedY
    let boxWidth := |clampedX - startPos.x|
    let boxHeight := |clampedY - startPos.y|
    { s with
      currentBox := some
        { x := boxX, y := boxY, width := boxWidth, height := boxHeight, class_id := 0 } }
  | _, _, _ => s

/-- The handler `handleMouseUp` (lines 215-223): appends `currentBox` to `boxes` when
it exists and both of its sides exceed 10, then ends the gesture. -/
def handleMouseUp (s : State) : State :=
  let boxes :=
    match s.currentBox with
    | some currentBox =>
      if currentBox.width > 10 ∧ currentBox.height > 10 then s.boxes ++ [currentBox]
      else s.boxes
    | none => s.boxes
  { s with boxes := boxes, isDrawing := false, startPos := none, currentBox := none }

/-! ## Serialisation and navigation: `handleSave`, `handleNext` -/

/-- The array `yoloBoxes` built by `handleSave` (lines 233-239): every pixel box is
turned into centre and size, each divided by the image side. -/
def yoloBoxes (boxes : List Box) (currentImage : HTMLImage) : List YoloBox :=
  boxes.map fun box =>
    { class_id := box.class_id
      x_center := (box.x + box.width / 2) / currentImage.width
      y_center := (box.y + box.height / 2) / currentImage.height
      width := box.width / currentImage.width
      height := box.height / currentImage.height }

/-- Modelled from the spec: `fromNormalized`, the inverse conversion of the
AnnotationSerializer (spec 4.3 and 8), is not part of the source; it maps a normalized
box back to pixels by `x = xCenter*w - width*w/2`, `y = yCenter*h - height*h/2`,
`width = width*w`, `height = height*h`, keeping the class. -/
def fromNormalized (n : YoloBox) (w h : ℚ) : Box :=
  { x := n.x_center * w - n.width * w / 2
    y := n.y_center * h - n.height * h / 2
    width := n.width * w
    height := n.height * h
    class_id := n.class_id }

/-- The array `yoloBoxes` of lines 233-239 with every sum and division rounded to
binary64. -/
def yoloBoxes64 (boxes : List Box) (currentImage : HTMLImage) : List YoloBox :=
  boxes.map fun box =>
    { class_id := box.class_id
      x_center := div64 (add64 box.x (div64 box.width 2)) currentImage.width
      y_center := div64 (add64 box.y (div64 box.height 2)) currentImage.height
      width := div64 box.width currentImage.width
      height := div64 box.height currentImage.height }

/-- Modelled from the spec: `fromNormalized`, which is not part of the source, with
the operations of its formulas `x = xCenter*w - width*w/2` and so on rounded to
binary64 in the order JavaScript evaluates them. -/
def fromNormalized64 (n : YoloBox) (w h : ℚ) : Box :=
  { x := sub64 (mul64 n.x_center w) (div64 (mul64 n.width w) 2)
    y := sub64 (mul64 n.y_center h) (div64 (mul64 n.height h) 2)
    width := mul64 n.width w
    height := mul64 n.height h
    class_id := n.class_id }

/-- The messages the component shows through `toast`. -/
inductive Toast where
  /-- The call `toast.error('Please draw at least one bounding box')`. -/
  | drawAtLeastOne
  /-- The call `toast.success` reporting `boxes.length` saved annotations. -/
  | saved (count : ℕ)
  /-- The call `toast.error('Failed to save annotation')`. -/
  | failedToSave
  /-- The call `toast.success('All images annotated!')`. -/
  | allAnnotated
  /-- The call `toast.success('Cleared all boxes')`. -/
  | clearedAll
  /-- The call `toast.error` reporting that the image `filename` failed to load. -/
  | failedToLoadImage (filename : String)
  deriving DecidableEq, Repr

/-- Whether a message is shown with `toast.error`. -/
def Toast.isError : Toast → Bool
  | .drawAtLeastOne => true
  | .failedToSave => true
  | .saved _ => false
  | .allAnnotated => false
  | .clearedAll => false
  | .failedToLoadImage _ => true

/-- The form fields `handleSave` posts to the save endpoint (lines 241-244). -/
structure SaveRequest where
  filename : String
  split : String
  annotations : List YoloBox
  deriving DecidableEq, Repr

/-- What a run of `handleSave` leaves behind: the next state, the request passed to
`axios.post` (if that call was reached) and the messages shown. -/
structure SaveResult where
  state : State
  request : Option SaveRequest
  toasts : List Toast
  deriving DecidableEq, Repr

/-- The function `handleNext` (lines 268-275).  The comparison is made on integers, as
`images.length - 1` is `-1` for an empty list. -/
def handleNext (s : State) : State × List Toast :=
  if (s.currentIndex : ℤ) < (s.images.length : ℤ) - 1 then
    ({ s with currentIndex := s.currentIndex + 1, boxes := [] }, [])
  else
    (s, [Toast.allAnnotated])

/-- The handler `handleSave` (lines 225-266); `postSucceeds` tells whether the awaited
`axios.post` resolves.  An empty `boxes` is rejected before the `try`.  Inside the
`try`, reading `currentImage.width` of a `null` image or `.filename` of a missing
`images[currentIndex]` throws, and so does a failed request: the `catch` then only
shows a message.  On success the current entry is marked annotated and `handleNext`
runs on the values of this render. -/
def handleSave (s : State) (postSucceeds : Bool) : SaveResult :=
  if s.boxes.length = 0 then
    { state := s, request := none, toasts := [Toast.drawAtLeastOne] }
  else
    match s.currentImage with
    | none => { state := s, request := none, toasts := [Toast.failedToSave] }
    | some currentImage =>
      match s.images[s.currentIndex]? with
      | none => { state := s, request := none, toasts := [Toast.failedToSave] }
      | some imageData =>
        let request : SaveRequest :=
          { filename := imageData.filename
            split := "train"
            annotations := yoloBoxes s.boxes currentImage }
        if postSucceeds then
          let updatedImages :=
            s.images.set s.currentIndex { imageData with has_annotation := true }
          let next := handleNext s
          { state := { next.1 with images := updatedImages }
            request := some request
            toasts := Toast.saved s.boxes.length :: next.2 }
        else
          { state := s, request := some request, toasts := [Toast.failedToSave] }

/-! ## Box list and image list: `handleDeleteBox`, `loadAnnotationData`, progress -/

/-- The method `Array.prototype.filter` with a callback that reads the element and its
index: the elements whose callback result is true are kept, in order.  `start` is the
index of the head of the list. -/
def filterWithIndex {α : Type} (f : α → ℕ → Bool) (start : ℕ) : List α → List α
  | [] => []
  | a :: rest =>
    if f a start then a :: filterWithIndex f (start + 1) rest
    else filterWithIndex f (start + 1) rest

/-- The handler `handleDeleteBox` (lines 286-288):
`setBoxes(boxes.filter((_, i) => i !== index))`. -/
def handleDeleteBox (s : State) (index : ℤ) : State :=
  { s with boxes := filterWithIndex (fun _ i => decide ((i : ℤ) ≠ index)) 0 s.boxes }

/-- The body `{ images, annotated }` returned by the annotation-images endpoint. -/
structure AnnotationData where
  images : List ImageData
  annotated : ℕ
  deriving DecidableEq, Repr

/-- The function `loadAnnotationData` (lines 45-71); `response` is `none` when the
request fails, in which case the `catch` leaves the state hooks of this model alone.
On success the list is stored and `currentIndex` is set to the result of
`findIndex(img => !img.has_annotation)` unless that result is `-1`. -/
def loadAnnotationData (s : State) (response : Option AnnotationData) : State :=
  match response with
  | none => s
  | some data =>
    match data.images.findIdx? (fun img => !img.has_annotation) with
    | some firstUnannotated =>
      { s with images := data.images, currentIndex := firstUnannotated }
    | none => { s with images := data.images }

/-- The count `images.filter(img => img.has_annotation).length` (line 314). -/
def annotatedCount (images : List ImageData) : ℕ :=
  (images.filter fun img => img.has_annotation).length

/-- The function `Math.round`: the nearest integer, a half going up. -/
def Math.round (x : ℚ) : ℤ :=
  ⌊x + 1 / 2⌋

/-- The function `calculateProgress` of `lib/utils.js` (lines 140-143), with the
quotient and the product rounded to binary64 in the order of the source. -/
def calculateProgress (current total : ℚ) : ℤ :=
  if total = 0 then 0 else Math.round (mul64 (div64 current total) 100)

/-- The integer written by `x.toFixed(0)`: the sign is set aside, and the integer
nearest to the absolute value is taken, the larger one on a tie. -/
def toFixed0 (x : ℚ) : ℤ :=
  if x < 0 then -⌊-x + 1 / 2⌋ else ⌊x + 1 / 2⌋

/-- The constant `progress` of the render (lines 301-314): with an empty `images` the
component returns the empty-dataset view before the constant is computed (`none`);
otherwise the quotient and then the product are rounded to binary64 before
`toFixed(0)`. -/
def progress (s : State) : Option ℤ :=
  if s.images.length = 0 then none
  else some (toFixed0 (mul64 (div64 (annotatedCount s.images) s.images.length) 100))

/-! ## Remaining handlers: skip, list click, clear, load failure, pointer leave -/

/-- The handler `handleSkip` (lines 277-279): it only calls `handleNext`, and makes no
call to `axios`, so the request of its result is `none`. -/
def handleSkip (s : State) : SaveResult :=
  { state := (handleNext s).1, request := none, toasts := (handleNext s).2 }

/-- The `onClick` of an entry of the image list (line 435): `setCurrentIndex(idx)`. -/
def imageList.onClick (s : State) (idx : ℕ) : State :=
  { s with currentIndex := idx }

/-- The handler `handleClearBoxes` (lines 281-284). -/
def handleClearBoxes (s : State) : State × List Toast :=
  ({ s with boxes := [] }, [Toast.clearedAll])

/-- The `img.onerror` callback of `loadImage` (lines 106-108): it only shows a
message naming the file. -/
def loadImage.onerror (s : State) (imageData : ImageData) : State × List Toast :=
  (s, [Toast.failedToLoadImage imageData.filename])

/-- The effect on `[currentIndex, images]` (lines 39-43): the entry for which
`loadImage` is called after a render, if any.  The load ends later with
`loadImage.onload` or `loadImage.onerror`. -/
def useEffect.loadImage (s : State) : Option ImageData :=
  if s.images.length > 0 ∧ s.currentIndex < s.images.length then s.images[s.currentIndex]?
  else none

/-- The `onMouseLeave` of the canvas (lines 386-388): `if (isDrawing) handleMouseUp()`. -/
def canvas.onMouseLeave (s : State) : State :=
  if s.isDrawing then handleMouseUp s else s

/-- The events of the box editor: the three pointer handlers, the pointer leaving the
canvas, the delete button of a box and the clear button. -/
inductive EditorEvent where
  | mouseDown (rect : DOMRect) (e : MouseEvent)
  | mouseMove (rect : DOMRect) (e : MouseEvent)
  | mouseUp
  | mouseLeave
  | deleteBox (index : ℤ)
  | clearBoxes
  deriving DecidableEq, Repr

/-- The handler run for one editor event. -/
def EditorEvent.step (s : State) : EditorEvent → Except JsError State
  | .mouseDown rect e => handleMouseDown s rect e
  | .mouseMove rect e => .ok (handleMouseMove s rect e)
  | .mouseUp => .ok (handleMouseUp s)
  | .mouseLeave => .ok (canvas.onMouseLeave s)
  | .deleteBox index => .ok (handleDeleteBox s index)
  | .clearBoxes => .ok (handleClearBoxes s).1

/-- The handlers run for a sequence of editor events, one after the other; the run
stops at the first exception. -/
def EditorEvent.run (s : State) : List EditorEvent → Except JsError State
  | [] => .ok s
  | ev :: rest =>
    match EditorEvent.step s ev with
    | .ok s1 => EditorEvent.run s1 rest
    | .error err => .error err

/-- The events that move through the image list: the skip button, the save button
(with the outcome of its request) and a click on entry `idx` of the image list. -/
inductive NavEvent where
  | skip
  | save (postSucceeds : Bool)
  | jump (idx : ℕ)
  deriving DecidableEq, Repr

/-- The state after the handler of one navigation event. -/
def NavEvent.step (s : State) : NavEvent → State
  | .skip => (handleSkip s).state
  | .save postSucceeds => (handleSave s postSucceeds).state
  | .jump idx => imageList.onClick s idx

/-- The state after a sequence of navigation events. -/
def NavEvent.run (s : State) : List NavEvent → State
  | [] => s
  | ev :: rest => NavEvent.run (NavEvent.step s ev) rest

/-- A click on the image list can only carry the index of a rendered entry. -/
def NavEvent.valid (length : ℕ) : NavEvent → Prop
  | .jump idx => idx < length
  | _ => True

/-- The condition of the committed-set invariant for a box on an image: both sides
exceed 10, the class is 0 and the box lies within the image. -/
def Box.committable (b : Box) (img : HTMLImage) : Prop :=
  10 < b.width ∧ 10 < b.height ∧ b.class_id = 0 ∧
    0 ≤ b.x ∧ 0 ≤ b.y ∧ b.x + b.width ≤ img.width ∧ b.y + b.height ≤ img.height

/-- A box lies within an image: its corner is non-negative, its sides are non-negative
and its far corner does not pass the image sides. -/
def Box.insideImage (b : Box) (img : HTMLImage) : Prop :=
  0 ≤ b.x ∧ 0 ≤ b.y ∧ 0 ≤ b.width ∧ 0 ≤ b.height ∧
    b.x + b.width ≤ img.width ∧ b.y + b.height ≤ img.height

instance (b : Box) (img : HTMLImage) : Decidable (b.insideImage img) := by
  unfold Box.insideImage
  infer_instance

/-- The invariant of the box editor on a loaded image `img`: the anchor, when there
is one, is inside the image bounds; the provisional box, when there is one, lies
within the image and has class 0; every committed box is committable. -/
def EditorInv (img : HTMLImage) (s : State) : Prop :=
  s.currentImage = some img ∧
    (∀ a, s.startPos = some a →
      (0 ≤ a.x ∧ a.x ≤ img.width) ∧ (0 ≤ a.y ∧ a.y ≤ img.height)) ∧
    (∀ b, s.currentBox = some b → b.insideImage img ∧ b.class_id = 0) ∧
    (∀ b ∈ s.boxes, b.committable img)

/-- All four geometric fields of a normalized box are in `[0, 1]`. -/
def YoloBox.inUnitInterval (n : YoloBox) : Prop :=
  (0 ≤ n.x_center ∧ n.x_center ≤ 1) ∧ (0 ≤ n.y_center ∧ n.y_center ≤ 1) ∧
    (0 ≤ n.width ∧ n.width ≤ 1) ∧ (0 ≤ n.height ∧ n.height ≤ 1)

instance (n : YoloBox) : Decidable n.inUnitInterval := by
  unfold YoloBox.inUnitInterval
  infer_instance

/-- A state in the middle of a gesture on a 640 by 480 image shown at scale 1 with no
offset: anchor `(10, 10)`, provisional box `{x: 10, y: 10, width: 90, height: 70}`. -/
def drawingExample : State :=
  { State.initial with
    images := [{ filename := "a.jpg", path := "/files/a.jpg", has_annotation := false }]
    currentImage := some { width := 640, height := 480 }
    isDrawing := true
    startPos := some { x := 10, y := 10 }
    currentBox := some { x := 10, y := 10, width := 90, height := 70, class_id := 0 } }

/-- A state holding one committed box while the loaded image reports size 0 by 0. -/
def zeroSizeExample : State :=
  { State.initial with
    images := [{ filename := "a.jpg", path := "/files/a.jpg", has_annotation := false }]
    currentImage := some { width := 0, height := 0 }
    boxes := [{ x := 10, y := 10, width := 90, height := 70, class_id := 0 }] }

/-- An idle state with a 640 by 480 image loaded into the 800 by 600 canvas: scale 1,
offset `(80, 60)`. -/
def loadedExample : State :=
  loadImage.onload State.initial { width := 640, height := 480 }
    (some { width := 800, height := 600 })

/-- A state listing four images, of which only the first is annotated. -/
def fourImagesExample : State :=
  { State.initial with
    images :=
      [{ filename := "A", path := "/A", has_annotation := true },
       { filename := "B", path := "/B", has_annotation := false },
       { filename := "C", path := "/C", has_annotation := false },
       { filename := "D", path := "/D", has_annotation := false }] }

/-- Two images listed, the first one (640 by 480) loaded and current, one box
committed on it. -/
def twoImagesExample : State :=
  { loadedExample with
    images :=
      [{ filename := "a.jpg", path := "/files/a.jpg", has_annotation := false },
       { filename := "b.jpg", path := "/files/b.jpg", has_annotation := false }]
    boxes := [{ x := 10, y := 10, width := 90, height := 70, class_id := 0 }] }

/-- Four images listed, the last one current, while a 640 by 480 image is shown at
scale 1 and one box is committed. -/
def staleExample : State :=
  { loadedExample with
    images := fourImagesExample.images
    currentIndex := 3
    boxes := [{ x := 10, y := 10, width := 90, height := 70, class_id := 0 }] }

/-- A state listing forty images, of which the first twenty-three are annotated. -/
def fortyImagesExample : State :=
  { State.initial with
    images :=
      List.replicate 23 { filename := "A", path := "/A", has_annotation := true } ++
        List.replicate 17 { filename := "B", path := "/B", has_annotation := false } }

/-- The state after a 928 by 600 image has loaded into the 800 by 600 canvas, computed
in binary64. -/
def wideExample : State :=
  loadImage.onload64 State.initial { width := 928, height := 600 }
    (some { width := 800, height := 600 })

/-! ## The draw gesture -/

/-- C1: `handleMouseUp` in a drawing state with provisional box `b` leaves `boxes` with
`b` appended at the end when `b.width > 10` and `b.height > 10`, and leaves `boxes` as
it was otherwise, in particular when a side is exactly 10.  With the anchor at
`(10, 10)`, a move to the image point `(15, 12)` followed by the release commits
nothing, and on an image of at least 100 by 80 a move to `(100, 80)` commits the box
`{x: 10, y: 10, width: 90, height: 70}`. -/
theorem handleMouseUp_commits_iff_both_sides_exceed_ten :
    (∀ (s : State) (b : Box), s.isDrawing = true → s.currentBox = some b →
      ((10 < b.width ∧ 10 < b.height → (handleMouseUp s).boxes = s.boxes ++ [b]) ∧
       (¬ (10 < b.width ∧ 10 < b.height) → (handleMouseUp s).boxes = s.boxes) ∧
       (b.width = 10 ∨ b.height = 10 → (handleMouseUp s).boxes = s.boxes))) ∧
    (∀ (s : State) (img : HTMLImage) (rect : DOMRect) (e : MouseEvent),
      s.isDrawing = true → s.startPos = some { x := 10, y := 10 } →
      s.currentImage = some img → imagePoint s rect e = { x := 15, y := 12 } →
      (handleMouseUp (handleMouseMove s rect e)).boxes = s.boxes) ∧
    (∀ (s : State) (img : HTMLImage) (rect : DOMRect) (e : MouseEvent),
      s.isDrawing = true → s.startPos = some { x := 10, y := 10 } →
      s.currentImage = some img → 100 ≤ img.width → 80 ≤ img.height →
      imagePoint s rect e = { x := 100, y := 80 } →
      (handleMouseUp (handleMouseMove s rect e)).boxes =
        s.boxes ++ [{ x := 10, y := 10, width := 90, height := 70, class_id := 0 }]) := by
  refine ⟨?_, ?_, ?_⟩
  · intro s b _ hb
    refine ⟨?_, ?_, ?_⟩
    · intro h
      simp [handleMouseUp, hb, h]
    · intro h
      simp [handleMouseUp, hb, h]
    · intro h
      have hn : ¬ (10 < b.width ∧ 10 < b.height) := by
        rintro ⟨hw, hh⟩
        rcases h with h | h
        · rw [h] at hw
          exact lt_irrefl _ hw
        · rw [h] at hh
          exact lt_irrefl _ hh
      simp [handleMouseUp, hb, hn]
  · intro s img rect e hd hs hi hp
    have hx : |max 0 (min (15 : ℚ) img.width) - 10| ≤ 10 := by
      rw [abs_le]
      constructor
      · have := le_max_left (0 : ℚ) (min 15 img.width)
        linarith
      · have : max 0 (min (15 : ℚ) img.width) ≤ 15 :=
          max_le (by norm_num) (min_le_left _ _)
        linarith
    simp [handleMouseUp, handleMouseMove, hd, hs, hi, hp, not_lt.mpr hx]
  · intro s img rect e hd hs hi hw hh hp
    have h1 : max 0 (min (100 : ℚ) img.width) = 100 := by
      rw [min_eq_left hw]
      norm_num
    have h2 : max 0 (min (80 : ℚ) img.height) = 80 := by
      rw [min_eq_left hh]
      norm_num
    simp [handleMouseUp, handleMouseMove, hd, hs, hi, hp, h1, h2]
    norm_num

/-- Instance of `handleMouseUp_commits_iff_both_sides_exceed_ten`: the provisional box
of `drawingExample` is committed, and the two example drags behave as stated. -/
theorem handleMouseUp_commits_iff_both_sides_exceed_ten_witness :
    (handleMouseUp drawingExample).boxes =
        [{ x := 10, y := 10, width := 90, height := 70, class_id := 0 }] ∧
    (handleMouseUp (handleMouseMove drawingExample { left := 0, top := 0 }
        { clientX := 15, clientY := 12 })).boxes = [] ∧
    (handleMouseUp (handleMouseMove drawingExample { left := 0, top := 0 }
        { clientX := 100, clientY := 80 })).boxes =
        [{ x := 10, y := 10, width := 90, height := 70, class_id := 0 }] :=
  ⟨(handleMouseUp_commits_iff_both_sides_exceed_ten.1 drawingExample
      { x := 10, y := 10, width := 90, height := 70, class_id := 0 } rfl rfl).1
      (by norm_num),
   handleMouseUp_commits_iff_both_sides_exceed_ten.2.1 drawingExample
      { width := 640, height := 480 } { left := 0, top := 0 }
      { clientX := 15, clientY := 12 } rfl rfl rfl
      (by simp [imagePoint, drawingExample, State.initial]),
   handleMouseUp_commits_iff_both_sides_exceed_ten.2.2 drawingExample
      { width := 640, height := 480 } { left := 0, top := 0 }
      { clientX := 100, clientY := 80 } rfl rfl rfl (by norm_num) (by norm_num)
      (by simp [imagePoint, drawingExample, State.initial])⟩

/-! ## Serialisation -/

/-- C2: for every list of pixel boxes and every image size, `yoloBoxes` has the length
of the input and its entry at each position is the box at that position rewritten as
class, centre over image side and size over image side; this list is what `handleSave`
submits as `annotations`. -/
theorem yoloBoxes_length_and_entries (boxes : List Box) (currentImage : HTMLImage) :
    (yoloBoxes boxes currentImage).length = boxes.length ∧
    (∀ (i : ℕ) (b : Box), boxes[i]? = some b →
      (yoloBoxes boxes currentImage)[i]? = some
        { class_id := b.class_id
          x_center := (b.x + b.width / 2) / currentImage.width
          y_center := (b.y + b.height / 2) / currentImage.height
          width := b.width / currentImage.width
          height := b.height / currentImage.height }) ∧
    (∀ (s : State) (postSucceeds : Bool) (d : ImageData),
      s.boxes = boxes → boxes ≠ [] → s.currentImage = some currentImage →
      s.images[s.currentIndex]? = some d →
      (handleSave s postSucceeds).request = some
        { filename := d.filename, split := "train"
          annotations := yoloBoxes boxes currentImage }) := by
  refine ⟨?_, ?_, ?_⟩
  · simp [yoloBoxes]
  · intro i b hb
    simp [yoloBoxes, hb]
  · intro s ok d hs hne hi hd
    cases ok <;> simp [handleSave, hi, hd, hs, hne]

/-- Instance of `yoloBoxes_length_and_entries`: saving `drawingExample` after its box
is committed submits the one converted box. -/
theorem yoloBoxes_length_and_entries_witness :
    (handleSave (handleMouseUp drawingExample) true).request = some
      { filename := "a.jpg", split := "train"
        annotations := yoloBoxes
          [{ x := 10, y := 10, width := 90, height := 70, class_id := 0 }]
          { width := 640, height := 480 } } :=
  (yoloBoxes_length_and_entries
      [{ x := 10, y := 10, width := 90, height := 70, class_id := 0 }]
      { width := 640, height := 480 }).2.2 (handleMouseUp drawingExample) true
    { filename := "a.jpg", path := "/files/a.jpg", has_annotation := false }
    (by norm_num [handleMouseUp, drawingExample, State.initial]) (by simp) rfl rfl

/-- Converting one box and mapping it back with `fromNormalized` over the same
non-zero image sides returns the box. -/
theorem fromNormalized_yolo_box (b : Box) (w h : ℚ) (hw : w ≠ 0) (hh : h ≠ 0) :
    fromNormalized
      { class_id := b.class_id
        x_center := (b.x + b.width / 2) / w
        y_center := (b.y + b.height / 2) / h
        width := b.width / w
        height := b.height / h } w h = b := by
  cases b with
  | mk x y width height class_id =>
    simp only [fromNormalized, Box.mk.injEq, and_true]
    refine ⟨?_, ?_, ?_, ?_⟩
    · field_simp
      ring
    · field_simp
      ring
    · field_simp
    · field_simp

/-- In exact arithmetic, for an image with positive sides, mapping `fromNormalized`
over the output of `yoloBoxes` returns the original boxes, box by box and for whole
lists; hence `yoloBoxes` is injective in the boxes for such an image. -/
theorem fromNormalized_yoloBoxes_exact (img : HTMLImage)
    (hw : 0 < img.width) (hh : 0 < img.height) :
    (∀ b : Box, (yoloBoxes [b] img).map (fun n => fromNormalized n img.width img.height)
        = [b]) ∧
    (∀ boxes : List Box,
      (yoloBoxes boxes img).map (fun n => fromNormalized n img.width img.height) = boxes) ∧
    Function.Injective (fun boxes : List Box => yoloBoxes boxes img) := by
  have key : ∀ boxes : List Box,
      (yoloBoxes boxes img).map (fun n => fromNormalized n img.width img.height) = boxes := by
    intro boxes
    induction boxes with
    | nil => rfl
    | cons b rest ih =>
      have ih2 : List.map (fun n => fromNormalized n img.width img.height)
          (List.map (fun box : Box =>
            ({ class_id := box.class_id
               x_center := (box.x + box.width / 2) / img.width
               y_center := (box.y + box.height / 2) / img.height
               width := box.width / img.width
               height := box.height / img.height } : YoloBox)) rest) = rest := ih
      simp only [yoloBoxes, List.map_cons]
      rw [ih2, fromNormalized_yolo_box b img.width img.height (ne_of_gt hw) (ne_of_gt hh)]
  refine ⟨fun b => key [b], key, ?_⟩
  intro a b hab
  have h := congrArg (List.map (fun n => fromNormalized n img.width img.height)) hab
  simp only [key] at h
  exact h

/-- C4 fails on the code: with one committed box and an image of size 0 by 0,
`handleSave` reaches `axios.post` whether or not the request later succeeds, and when it
succeeds no error message is shown at all. -/
theorem handleSave_zero_size_image_is_submitted :
    zeroSizeExample.currentImage = some { width := 0, height := 0 } ∧
    (handleSave zeroSizeExample true).request ≠ none ∧
    (handleSave zeroSizeExample false).request ≠ none ∧
    (∀ t ∈ (handleSave zeroSizeExample true).toasts, t.isError = false) := by
  refine ⟨rfl, ?_, ?_, ?_⟩
  · simp [handleSave, zeroSizeExample, State.initial]
  · simp [handleSave, zeroSizeExample, State.initial]
  · simp [handleSave, handleNext, zeroSizeExample, State.initial, Toast.isError]

/-- C4 as amended: `handleSave` makes no check on the image size.  With a loaded image
of any size, non-positive sides included, and a valid current index, the request is
withheld exactly when `boxes` is empty; otherwise it is submitted with one annotation
per box, and a successful request shows no error message. -/
theorem handleSave_rejects_only_empty_boxes (s : State) (postSucceeds : Bool)
    (img : HTMLImage) (d : ImageData)
    (hi : s.currentImage = some img) (hd : s.images[s.currentIndex]? = some d) :
    ((handleSave s postSucceeds).request = none ↔ s.boxes = []) ∧
    (s.boxes ≠ [] → ∃ r, (handleSave s postSucceeds).request = some r ∧
      r.annotations.length = s.boxes.length) ∧
    (s.boxes ≠ [] → postSucceeds = true →
      ∀ t ∈ (handleSave s postSucceeds).toasts, t.isError = false) := by
  by_cases hb : s.boxes = []
  · refine ⟨?_, fun h => absurd hb h, fun h => absurd hb h⟩
    simp [handleSave, hb]
  · refine ⟨?_, ?_, ?_⟩
    · cases postSucceeds <;> simp [handleSave, hi, hd, hb]
    · intro _
      cases postSucceeds <;> simp [handleSave, hi, hd, hb, yoloBoxes]
    · intro _ hok
      subst hok
      intro t ht
      simp only [handleSave, List.length_eq_zero, hb, if_false, hi, hd, if_true,
        List.mem_cons] at ht
      rcases ht with ht | ht
      · rw [ht]
        rfl
      · unfold handleNext at ht
        split_ifs at ht with hlt
        · simp at ht
        · simp only [List.mem_singleton] at ht
          rw [ht]
          rfl

/-- Instance of `handleSave_rejects_only_empty_boxes` at an image of size 0 by 0. -/
theorem handleSave_rejects_only_empty_boxes_witness :
    ∃ r, (handleSave zeroSizeExample false).request = some r ∧
      r.annotations.length = zeroSizeExample.boxes.length :=
  (handleSave_rejects_only_empty_boxes zeroSizeExample false { width := 0, height := 0 }
    { filename := "a.jpg", path := "/files/a.jpg", has_annotation := false } rfl rfl).2.1
    (by simp [zeroSizeExample])

/-- The corner and side that `handleMouseMove` computes along one axis from an anchor
and a clamped point, both in `[0, w]`, describe a segment inside `[0, w]`. -/
theorem min_add_abs_sub_le (a c w : ℚ) (ha0 : 0 ≤ a) (haw : a ≤ w) (hc0 : 0 ≤ c)
    (hcw : c ≤ w) : 0 ≤ min a c ∧ 0 ≤ |c - a| ∧ min a c + |c - a| ≤ w := by
  refine ⟨le_min ha0 hc0, abs_nonneg _, ?_⟩
  rcases le_total a c with h | h
  · rw [min_eq_left h, abs_of_nonneg (sub_nonneg.mpr h)]
    linarith
  · rw [min_eq_right h, abs_of_nonpos (sub_nonpos.mpr h)]
    linarith

/-- The pointer clamped by `Math.max(0, Math.min(x, w))` lies in `[0, w]` when `0 ≤ w`. -/
theorem clamp_mem (x w : ℚ) (hw : 0 ≤ w) : 0 ≤ max 0 (min x w) ∧ max 0 (min x w) ≤ w :=
  ⟨le_max_left _ _, max_le hw (min_le_right _ _)⟩

/-- During a gesture whose anchor is inside the image, `handleMouseMove` stores a
provisional box that lies within the image, wherever the pointer is. -/
theorem handleMouseMove_box_insideImage (s : State) (rect : DOMRect) (e : MouseEvent)
    (img : HTMLImage) (a : Pos) (hd : s.isDrawing = true) (hs : s.startPos = some a)
    (hi : s.currentImage = some img) (hx0 : 0 ≤ a.x) (hxw : a.x ≤ img.width)
    (hy0 : 0 ≤ a.y) (hyh : a.y ≤ img.height) :
    ∃ b, (handleMouseMove s rect e).currentBox = some b ∧ b.insideImage img := by
  have hw : 0 ≤ img.width := le_trans hx0 hxw
  have hh : 0 ≤ img.height := le_trans hy0 hyh
  obtain ⟨cx0, cxw⟩ := clamp_mem (imagePoint s rect e).x img.width hw
  obtain ⟨cy0, cyh⟩ := clamp_mem (imagePoint s rect e).y img.height hh
  obtain ⟨x1, x2, x3⟩ := min_add_abs_sub_le a.x _ img.width hx0 hxw cx0 cxw
  obtain ⟨y1, y2, y3⟩ := min_add_abs_sub_le a.y _ img.height hy0 hyh cy0 cyh
  refine ⟨{ x := min a.x (max 0 (min (imagePoint s rect e).x img.width))
            y := min a.y (max 0 (min (imagePoint s rect e).y img.height))
            width := |max 0 (min (imagePoint s rect e).x img.width) - a.x|
            height := |max 0 (min (imagePoint s rect e).y img.height) - a.y|
            class_id := 0 }, ?_, ?_⟩
  · simp only [handleMouseMove, hd, hs, hi]
  · exact ⟨x1, y1, x2, y2, x3, y3⟩

/-- C5: on an image with positive sides, every box lying within the image is converted
by `yoloBoxes` into a normalized box whose centre and size fields are all in `[0, 1]`;
the provisional box of a gesture anchored inside the image is such a box. -/
theorem yoloBoxes_inUnitInterval (img : HTMLImage) (hw : 0 < img.width)
    (hh : 0 < img.height) :
    (∀ boxes : List Box, (∀ b ∈ boxes, b.insideImage img) →
      ∀ n ∈ yoloBoxes boxes img, n.inUnitInterval) ∧
    (∀ (s : State) (rect : DOMRect) (e : MouseEvent) (a : Pos),
      s.isDrawing = true → s.startPos = some a → s.currentImage = some img →
      0 ≤ a.x → a.x ≤ img.width → 0 ≤ a.y → a.y ≤ img.height →
      ∃ b, (handleMouseMove s rect e).currentBox = some b ∧ b.insideImage img ∧
        ∀ n ∈ yoloBoxes [b] img, n.inUnitInterval) := by
  have main : ∀ boxes : List Box, (∀ b ∈ boxes, b.insideImage img) →
      ∀ n ∈ yoloBoxes boxes img, n.inUnitInterval := by
    intro boxes hin n hn
    simp only [yoloBoxes, List.mem_map] at hn
    obtain ⟨b, hb, rfl⟩ := hn
    obtain ⟨bx, by0, bw, bh, bxw, byh⟩ := hin b hb
    refine ⟨⟨?_, ?_⟩, ⟨?_, ?_⟩, ⟨?_, ?_⟩, ⟨?_, ?_⟩⟩
    · exact div_nonneg (by linarith) hw.le
    · rw [div_le_one hw]
      linarith
    · exact div_nonneg (by linarith) hh.le
    · rw [div_le_one hh]
      linarith
    · exact div_nonneg bw hw.le
    · rw [div_le_one hw]
      linarith
    · exact div_nonneg bh hh.le
    · rw [div_le_one hh]
      linarith
  refine ⟨main, ?_⟩
  intro s rect e a hd hs hi hx0 hxw hy0 hyh
  obtain ⟨b, hb, hin⟩ :=
    handleMouseMove_box_insideImage s rect e img a hd hs hi hx0 hxw hy0 hyh
  refine ⟨b, hb, hin, main [b] ?_⟩
  intro b1 hb1
  rw [List.mem_singleton] at hb1
  rw [hb1]
  exact hin

/-- Instance of `yoloBoxes_inUnitInterval` on a 640 by 480 image: the normalized form
of the box `{x: 10, y: 10, width: 90, height: 70}` has all fields in `[0, 1]`. -/
theorem yoloBoxes_inUnitInterval_witness :
    YoloBox.inUnitInterval
      { class_id := 0
        x_center := (10 + 90 / 2) / 640
        y_center := (10 + 70 / 2) / 480
        width := 90 / 640
        height := 70 / 480 } :=
  (yoloBoxes_inUnitInterval { width := 640, height := 480 } (by norm_num) (by norm_num)).1
    [{ x := 10, y := 10, width := 90, height := 70, class_id := 0 }]
    (by
      intro b hb
      rw [List.mem_singleton] at hb
      rw [hb]
      norm_num [Box.insideImage])
    _ (by simp [yoloBoxes])

/-! ## Viewport -/

/-- C6: for positive image and canvas sides, the transform stored by the `onload`
callback has `scale = min(sw/iw, sh/ih, 1)`, `offset.x = (sw - iw*scale)/2` and
`offset.y = (sh - ih*scale)/2`, so the scaled image has equal margins left and right and
equal margins above and below. -/
theorem loadImage_onload_transform (s : State) (img : HTMLImage) (c : Canvas)
    (_hiw : 0 < img.width) (_hih : 0 < img.height) (_hsw : 0 < c.width)
    (_hsh : 0 < c.height) :
    (loadImage.onload s img (some c)).scale
      = min (min (c.width / img.width) (c.height / img.height)) 1 ∧
    (loadImage.onload s img (some c)).offset.x
      = (c.width - img.width * (loadImage.onload s img (some c)).scale) / 2 ∧
    (loadImage.onload s img (some c)).offset.y
      = (c.height - img.height * (loadImage.onload s img (some c)).scale) / 2 ∧
    (loadImage.onload s img (some c)).offset.x
      = c.width - ((loadImage.onload s img (some c)).offset.x
          + img.width * (loadImage.onload s img (some c)).scale) ∧
    (loadImage.onload s img (some c)).offset.y
      = c.height - ((loadImage.onload s img (some c)).offset.y
          + img.height * (loadImage.onload s img (some c)).scale) := by
  refine ⟨rfl, rfl, rfl, ?_, ?_⟩
  · simp only [loadImage.onload]
    ring
  · simp only [loadImage.onload]
    ring

/-- Instance of `loadImage_onload_transform`: a 1600 by 600 image on the 800 by 600
canvas is shown at scale 1/2. -/
theorem loadImage_onload_transform_witness :
    (loadImage.onload State.initial { width := 1600, height := 600 }
        (some { width := 800, height := 600 })).scale
      = min (min ((800 : ℚ) / 1600) ((600 : ℚ) / 600)) 1 :=
  (loadImage_onload_transform State.initial { width := 1600, height := 600 }
    { width := 800, height := 600 } (by norm_num) (by norm_num) (by norm_num)
    (by norm_num)).1

/-- C7: for positive image and canvas sides, the scale stored by the `onload` callback
satisfies `0 < scale ≤ 1`. -/
theorem loadImage_onload_scale_pos_le_one (s : State) (img : HTMLImage) (c : Canvas)
    (hiw : 0 < img.width) (hih : 0 < img.height) (hsw : 0 < c.width)
    (hsh : 0 < c.height) :
    0 < (loadImage.onload s img (some c)).scale ∧
      (loadImage.onload s img (some c)).scale ≤ 1 := by
  constructor
  · exact lt_min (lt_min (div_pos hsw hiw) (div_pos hsh hih)) one_pos
  · exact min_le_right _ _

/-- Instance of `loadImage_onload_scale_pos_le_one` for a 1600 by 600 image on the
800 by 600 canvas. -/
theorem loadImage_onload_scale_pos_le_one_witness :
    0 < (loadImage.onload State.initial { width := 1600, height := 600 }
        (some { width := 800, height := 600 })).scale ∧
      (loadImage.onload State.initial { width := 1600, height := 600 }
        (some { width := 800, height := 600 })).scale ≤ 1 :=
  loadImage_onload_scale_pos_le_one State.initial { width := 1600, height := 600 }
    { width := 800, height := 600 } (by norm_num) (by norm_num) (by norm_num)
    (by norm_num)

/-- The state `loadedExample` spelled out. -/
theorem loadedExample_eq :
    loadedExample =
      { State.initial with
        currentImage := some { width := 640, height := 480 }
        scale := 1
        offset := { x := 80, y := 60 } } := by
  simp only [loadedExample, loadImage.onload, State.initial]
  norm_num

/-- C8: for a transform with positive scale and a pointer at the canvas position
`(sx, sy)`, both pointer handlers work with the image point
`((sx - offset.x)/scale, (sy - offset.y)/scale)`: `handleMouseDown` records exactly this
point as the anchor when it is inside the image, and `handleMouseMove` builds the
provisional box from the anchor and this same point clamped to the image. -/
theorem pointer_handlers_map_to_image_point (s : State) (rect : DOMRect) (e : MouseEvent)
    (img : HTMLImage) (sx sy : ℚ) (_hscale : 0 < s.scale)
    (hsx : sx = e.clientX - rect.left) (hsy : sy = e.clientY - rect.top)
    (hi : s.currentImage = some img) :
    imagePoint s rect e
      = { x := (sx - s.offset.x) / s.scale, y := (sy - s.offset.y) / s.scale } ∧
    (0 ≤ (sx - s.offset.x) / s.scale → (sx - s.offset.x) / s.scale ≤ img.width →
      0 ≤ (sy - s.offset.y) / s.scale → (sy - s.offset.y) / s.scale ≤ img.height →
      handleMouseDown s rect e = .ok
        { s with
          isDrawing := true
          startPos := some
            { x := (sx - s.offset.x) / s.scale, y := (sy - s.offset.y) / s.scale } }) ∧
    (∀ a : Pos, s.isDrawing = true → s.startPos = some a →
      handleMouseMove s rect e =
        { s with
          currentBox := some
            { x := min a.x (max 0 (min ((sx - s.offset.x) / s.scale) img.width))
              y := min a.y (max 0 (min ((sy - s.offset.y) / s.scale) img.height))
              width := |max 0 (min ((sx - s.offset.x) / s.scale) img.width) - a.x|
              height := |max 0 (min ((sy - s.offset.y) / s.scale) img.height) - a.y|
              class_id := 0 } }) := by
  subst hsx hsy
  refine ⟨rfl, ?_, ?_⟩
  · intro h1 h2 h3 h4
    simp only [handleMouseDown, imagePoint, hi, ge_iff_le, h1, h2, h3, h4, and_self,
      if_true]
  · intro a hd hs
    simp only [handleMouseMove, imagePoint, hd, hs, hi]

/-- Instance of `pointer_handlers_map_to_image_point`: on `loadedExample` a press at
the canvas position `(90, 70)` is the image point `(10, 10)`. -/
theorem pointer_handlers_map_to_image_point_witness :
    imagePoint loadedExample { left := 5, top := 5 } { clientX := 95, clientY := 75 }
      = { x := (90 - loadedExample.offset.x) / loadedExample.scale
          y := (70 - loadedExample.offset.y) / loadedExample.scale } :=
  (pointer_handlers_map_to_image_point loadedExample { left := 5, top := 5 }
    { clientX := 95, clientY := 75 } { width := 640, height := 480 } 90 70
    (by rw [loadedExample_eq]; norm_num) (by norm_num) (by norm_num)
    (by rw [loadedExample_eq])).1

/-- C10: from an idle state with a loaded image, `handleMouseDown` at the image point
`(x, y)` starts a gesture anchored at `(x, y)` if and only if `0 ≤ x ≤ width` and
`0 ≤ y ≤ height`, the borders included; at any other point it returns the state as it
was, still idle and without an anchor. -/
theorem handleMouseDown_idle_begins_iff_in_bounds (s : State) (rect : DOMRect)
    (e : MouseEvent) (img : HTMLImage) (x y : ℚ)
    (hidle : s.isDrawing = false) (hsp : s.startPos = none)
    (hi : s.currentImage = some img) (hp : imagePoint s rect e = { x := x, y := y }) :
    ((∃ s1, handleMouseDown s rect e = .ok s1 ∧ s1.isDrawing = true ∧
        s1.startPos = some { x := x, y := y })
      ↔ (0 ≤ x ∧ x ≤ img.width) ∧ (0 ≤ y ∧ y ≤ img.height)) ∧
    ((0 ≤ x ∧ x ≤ img.width) ∧ (0 ≤ y ∧ y ≤ img.height) →
      handleMouseDown s rect e
        = .ok { s with isDrawing := true, startPos := some { x := x, y := y } }) ∧
    (¬ ((0 ≤ x ∧ x ≤ img.width) ∧ (0 ≤ y ∧ y ≤ img.height)) →
      handleMouseDown s rect e = .ok s ∧ s.isDrawing = false ∧ s.startPos = none) := by
  have hin : (0 ≤ x ∧ x ≤ img.width) ∧ (0 ≤ y ∧ y ≤ img.height) →
      handleMouseDown s rect e
        = .ok { s with isDrawing := true, startPos := some { x := x, y := y } } := by
    rintro ⟨⟨h1, h2⟩, h3, h4⟩
    simp only [handleMouseDown, hp, hi, ge_iff_le, h1, h2, h3, h4, and_self, if_true]
  have hout : ¬ ((0 ≤ x ∧ x ≤ img.width) ∧ (0 ≤ y ∧ y ≤ img.height)) →
      handleMouseDown s rect e = .ok s := by
    intro hn
    simp only [handleMouseDown, hp, hi, ge_iff_le]
    by_cases h1 : 0 ≤ x
    · have h2 : ¬ (x ≤ img.width ∧ 0 ≤ y ∧ y ≤ img.height) := by
        rintro ⟨a, b, c⟩
        exact hn ⟨⟨h1, a⟩, b, c⟩
      simp only [h1, h2, if_true, if_false]
    · simp only [h1, if_false]
  refine ⟨⟨?_, ?_⟩, hin, fun hn => ⟨hout hn, hidle, hsp⟩⟩
  · rintro ⟨s1, hs1, hd1, _⟩
    by_contra hn
    rw [hout hn] at hs1
    have hs : s = s1 := by
      injection hs1
    rw [← hs, hidle] at hd1
    exact Bool.noConfusion hd1
  · intro h
    exact ⟨_, hin h, rfl, rfl⟩

/-- Instance of `handleMouseDown_idle_begins_iff_in_bounds`: on `loadedExample` a
press on the right border of the image, `x = 640`, starts a gesture there. -/
theorem handleMouseDown_idle_begins_iff_in_bounds_witness :
    handleMouseDown loadedExample { left := 0, top := 0 } { clientX := 720, clientY := 60 }
      = .ok { loadedExample with isDrawing := true, startPos := some { x := 640, y := 0 } } :=
  (handleMouseDown_idle_begins_iff_in_bounds loadedExample { left := 0, top := 0 }
    { clientX := 720, clientY := 60 } { width := 640, height := 480 } 640 0
    (by rw [loadedExample_eq]; rfl) (by rw [loadedExample_eq]; rfl)
    (by rw [loadedExample_eq])
    (by rw [loadedExample_eq]; norm_num [imagePoint, State.initial])).2.1
    (by norm_num)

/-! ## The gesture cycle -/

/-- C11 fails on the code: `drawingExample` is in the middle of a gesture anchored at
`(10, 10)`; a second press at the image point `(200, 150)` is accepted and moves the
anchor there. -/
theorem handleMouseDown_while_drawing_moves_anchor :
    drawingExample.isDrawing = true ∧
    drawingExample.startPos = some { x := 10, y := 10 } ∧
    handleMouseDown drawingExample { left := 0, top := 0 } { clientX := 200, clientY := 150 }
      = .ok { drawingExample with startPos := some { x := 200, y := 150 } } ∧
    (some { x := 200, y := 150 } : Option Pos) ≠ drawingExample.startPos := by
  refine ⟨rfl, rfl, ?_, ?_⟩
  · simp only [handleMouseDown, imagePoint, drawingExample, State.initial]
    norm_num
  · simp only [drawingExample, State.initial]
    norm_num

/-- C11 as amended: `handleMouseDown` does not look at `isDrawing`.  Issued during a
gesture on a loaded image, a press inside the image bounds replaces the anchor by the
new point and a press outside them returns the state as it was; either way the gesture
goes on, the committed boxes and the provisional box are kept, and `handleMouseUp`
ends the gesture. -/
theorem handleMouseDown_while_drawing (s : State) (rect : DOMRect) (e : MouseEvent)
    (img : HTMLImage) (a : Pos) (x y : ℚ)
    (hd : s.isDrawing = true) (_hs : s.startPos = some a)
    (hi : s.currentImage = some img) (hp : imagePoint s rect e = { x := x, y := y }) :
    ((0 ≤ x ∧ x ≤ img.width) ∧ (0 ≤ y ∧ y ≤ img.height) →
      handleMouseDown s rect e = .ok { s with startPos := some { x := x, y := y } }) ∧
    (¬ ((0 ≤ x ∧ x ≤ img.width) ∧ (0 ≤ y ∧ y ≤ img.height)) →
      handleMouseDown s rect e = .ok s) ∧
    (∃ s1, handleMouseDown s rect e = .ok s1 ∧ s1.isDrawing = true ∧
      s1.boxes = s.boxes ∧ s1.currentBox = s.currentBox ∧
      (handleMouseUp s1).isDrawing = false) := by
  have hin : (0 ≤ x ∧ x ≤ img.width) ∧ (0 ≤ y ∧ y ≤ img.height) →
      handleMouseDown s rect e = .ok { s with startPos := some { x := x, y := y } } := by
    rintro ⟨⟨h1, h2⟩, h3, h4⟩
    simp only [handleMouseDown, hp, hi, ge_iff_le, h1, h2, h3, h4, and_self, if_true]
    rw [← hd]
  have hout : ¬ ((0 ≤ x ∧ x ≤ img.width) ∧ (0 ≤ y ∧ y ≤ img.height)) →
      handleMouseDown s rect e = .ok s := by
    intro hn
    simp only [handleMouseDown, hp, hi, ge_iff_le]
    by_cases h1 : 0 ≤ x
    · have h2 : ¬ (x ≤ img.width ∧ 0 ≤ y ∧ y ≤ img.height) := by
        rintro ⟨u, v, w⟩
        exact hn ⟨⟨h1, u⟩, v, w⟩
      simp only [h1, h2, if_true, if_false]
    · simp only [h1, if_false]
  refine ⟨hin, hout, ?_⟩
  by_cases hb : (0 ≤ x ∧ x ≤ img.width) ∧ (0 ≤ y ∧ y ≤ img.height)
  · exact ⟨_, hin hb, hd, rfl, rfl, rfl⟩
  · exact ⟨s, hout hb, hd, rfl, rfl, rfl⟩

/-- Instance of `handleMouseDown_while_drawing`: the second press on `drawingExample`
at `(200, 150)`. -/
theorem handleMouseDown_while_drawing_witness :
    handleMouseDown drawingExample { left := 0, top := 0 } { clientX := 200, clientY := 150 }
      = .ok { drawingExample with startPos := some { x := 200, y := 150 } } :=
  (handleMouseDown_while_drawing drawingExample { left := 0, top := 0 }
    { clientX := 200, clientY := 150 } { width := 640, height := 480 }
    { x := 10, y := 10 } 200 150 rfl rfl rfl
    (by simp [imagePoint, drawingExample, State.initial])).1 (by norm_num)

/-- C12: during a gesture with anchor `(ax, ay)` on an image of size `(iw, ih)`,
`handleMouseMove` at the image point `(px, py)` sets the provisional box to
`x = min(ax, cx)`, `y = min(ay, cy)`, `width = |cx - ax|`, `height = |cy - ay|`,
`class_id = 0`, where `cx = max(0, min(px, iw))` and `cy = max(0, min(py, ih))`. -/
theorem handleMouseMove_provisional_box (s : State) (rect : DOMRect) (e : MouseEvent)
    (img : HTMLImage) (ax ay px py cx cy : ℚ)
    (hd : s.isDrawing = true) (hs : s.startPos = some { x := ax, y := ay })
    (hi : s.currentImage = some img) (hp : imagePoint s rect e = { x := px, y := py })
    (hcx : cx = max 0 (min px img.width)) (hcy : cy = max 0 (min py img.height)) :
    (handleMouseMove s rect e).currentBox = some
      { x := min ax cx, y := min ay cy, width := |cx - ax|, height := |cy - ay|,
        class_id := 0 } := by
  subst hcx hcy
  simp only [handleMouseMove, hd, hs, hi, hp]

/-- Instance of `handleMouseMove_provisional_box`: on `drawingExample` a pointer at
`(700, 5)`, right of the image, gives the box `{x: 10, y: 5, width: 630, height: 5}`. -/
theorem handleMouseMove_provisional_box_witness :
    (handleMouseMove drawingExample { left := 0, top := 0 }
        { clientX := 700, clientY := 5 }).currentBox = some
      { x := min 10 640, y := min 10 5, width := |(640 : ℚ) - 10|, height := |(5 : ℚ) - 10|,
        class_id := 0 } :=
  handleMouseMove_provisional_box drawingExample { left := 0, top := 0 }
    { clientX := 700, clientY := 5 } { width := 640, height := 480 } 10 10 700 5 640 5
    rfl rfl rfl (by simp [imagePoint, drawingExample, State.initial])
    (by norm_num) (by norm_num)

/-- C13: `handleMouseMove` never changes `boxes` or the anchor `startPos` (nor the
image list, the index, the image, the drawing flag or the transform), and outside a
gesture it returns the state as it was, so no provisional box appears. -/
theorem handleMouseMove_frame (s : State) (rect : DOMRect) (e : MouseEvent) :
    (handleMouseMove s rect e).boxes = s.boxes ∧
    (handleMouseMove s rect e).startPos = s.startPos ∧
    (handleMouseMove s rect e).isDrawing = s.isDrawing ∧
    (handleMouseMove s rect e).images = s.images ∧
    (handleMouseMove s rect e).currentIndex = s.currentIndex ∧
    (handleMouseMove s rect e).currentImage = s.currentImage ∧
    (handleMouseMove s rect e).scale = s.scale ∧
    (handleMouseMove s rect e).offset = s.offset ∧
    (s.isDrawing = false → handleMouseMove s rect e = s) := by
  unfold handleMouseMove
  split
  · exact ⟨rfl, rfl, rfl, rfl, rfl, rfl, rfl, rfl, fun _ => by simp_all⟩
  · exact ⟨rfl, rfl, rfl, rfl, rfl, rfl, rfl, rfl, fun _ => rfl⟩

/-- Instance of `handleMouseMove_frame`: a move over the idle `loadedExample` changes
nothing. -/
theorem handleMouseMove_frame_witness :
    handleMouseMove loadedExample { left := 0, top := 0 } { clientX := 300, clientY := 200 }
      = loadedExample :=
  (handleMouseMove_frame loadedExample { left := 0, top := 0 }
    { clientX := 300, clientY := 200 }).2.2.2.2.2.2.2.2 (by rw [loadedExample_eq]; rfl)

/-- C14: during a gesture whose anchor is inside the image bounds, the provisional box
stored by `handleMouseMove` lies within the image for every pointer position:
`0 ≤ x`, `0 ≤ y`, `0 ≤ width`, `0 ≤ height`, `x + width ≤ imageWidth` and
`y + height ≤ imageHeight`. -/
theorem handleMouseMove_box_clipped (s : State) (rect : DOMRect) (e : MouseEvent)
    (img : HTMLImage) (a : Pos) (hd : s.isDrawing = true) (hs : s.startPos = some a)
    (hi : s.currentImage = some img) (hx : 0 ≤ a.x ∧ a.x ≤ img.width)
    (hy : 0 ≤ a.y ∧ a.y ≤ img.height) :
    ∃ b, (handleMouseMove s rect e).currentBox = some b ∧
      0 ≤ b.x ∧ 0 ≤ b.y ∧ 0 ≤ b.width ∧ 0 ≤ b.height ∧
      b.x + b.width ≤ img.width ∧ b.y + b.height ≤ img.height := by
  obtain ⟨b, hb, hin⟩ :=
    handleMouseMove_box_insideImage s rect e img a hd hs hi hx.1 hx.2 hy.1 hy.2
  exact ⟨b, hb, hin⟩

/-- Instance of `handleMouseMove_box_clipped`: on `drawingExample` a pointer far
outside the image, at `(10000, -50)`. -/
theorem handleMouseMove_box_clipped_witness :
    ∃ b, (handleMouseMove drawingExample { left := 0, top := 0 }
        { clientX := 10000, clientY := -50 }).currentBox = some b ∧
      0 ≤ b.x ∧ 0 ≤ b.y ∧ 0 ≤ b.width ∧ 0 ≤ b.height ∧
      b.x + b.width ≤ 640 ∧ b.y + b.height ≤ 480 :=
  handleMouseMove_box_clipped drawingExample { left := 0, top := 0 }
    { clientX := 10000, clientY := -50 } { width := 640, height := 480 }
    { x := 10, y := 10 } rfl rfl rfl (by norm_num) (by norm_num)

/-! ## Deleting a box -/

/-- Filtering out an index that lies before the first index of the list keeps the
whole list. -/
theorem filterWithIndex_ne_of_lt {α : Type} (index : ℤ) (l : List α) (start : ℕ)
    (h : index < (start : ℤ)) :
    filterWithIndex (fun _ i => decide ((i : ℤ) ≠ index)) start l = l := by
  induction l generalizing start with
  | nil => rfl
  | cons a rest ih =>
    have h1 : ((start : ℕ) : ℤ) ≠ index := ne_of_gt h
    have h2 : index < ((start + 1 : ℕ) : ℤ) := by
      push_cast
      linarith
    simp only [filterWithIndex, h1, ne_eq, not_false_eq_true, decide_True, if_true]
    rw [ih (start + 1) h2]

/-- Filtering out the index `start + k` from a list whose head has index `start`
erases the entry at position `k`. -/
theorem filterWithIndex_ne_eq_eraseIdx {α : Type} (l : List α) (start k : ℕ) :
    filterWithIndex (fun _ i => decide ((i : ℤ) ≠ ((start + k : ℕ) : ℤ))) start l
      = l.eraseIdx k := by
  induction l generalizing start k with
  | nil => rfl
  | cons a rest ih =>
    cases k with
    | zero =>
      have h2 : ((start + 0 : ℕ) : ℤ) < ((start + 1 : ℕ) : ℤ) := by
        push_cast
        linarith
      simp only [filterWithIndex, Nat.add_zero, ne_eq, not_true_eq_false, decide_False,
        Bool.false_eq_true, if_false, List.eraseIdx_cons_zero]
      exact filterWithIndex_ne_of_lt _ rest (start + 1) h2
    | succ k =>
      have h1 : ((start : ℕ) : ℤ) ≠ ((start + (k + 1) : ℕ) : ℤ) := by
        push_cast
        linarith
      have h3 : start + (k + 1) = start + 1 + k := by omega
      simp only [filterWithIndex, h1, ne_eq, not_false_eq_true, decide_True, if_true,
        List.eraseIdx_cons_succ]
      rw [h3, ih (start + 1) k]

/-- C15: `handleDeleteBox` with an index `i` in range, `0 ≤ i < n`, removes exactly the
entry at position `i`: the result is the entries before `i` followed by the entries
after `i`, of length `n - 1`.  With an index out of range, negative or at least `n`
(so also on an empty list), it returns the state as it was.  The handler is a total
function: it has no failing case. -/
theorem handleDeleteBox_removes_entry (s : State) (index : ℤ) :
    (0 ≤ index → index < (s.boxes.length : ℤ) →
      (handleDeleteBox s index).boxes
          = s.boxes.take index.toNat ++ s.boxes.drop (index.toNat + 1) ∧
        (handleDeleteBox s index).boxes.length + 1 = s.boxes.length) ∧
    (index < 0 ∨ (s.boxes.length : ℤ) ≤ index → handleDeleteBox s index = s) := by
  constructor
  · intro h0 hlt
    obtain ⟨k, rfl⟩ := Int.eq_ofNat_of_zero_le h0
    have hk : k < s.boxes.length := by exact_mod_cast hlt
    have key : (handleDeleteBox s (k : ℤ)).boxes = s.boxes.eraseIdx k := by
      have h := filterWithIndex_ne_eq_eraseIdx s.boxes 0 k
      simp only [Nat.zero_add] at h
      simp only [handleDeleteBox]
      exact h
    constructor
    · rw [key, Int.toNat_ofNat, List.eraseIdx_eq_take_drop_succ]
    · rw [key, List.length_eraseIdx, if_pos hk]
      omega
  · intro h
    have key : (handleDeleteBox s index).boxes = s.boxes := by
      rcases h with h | h
      · exact filterWithIndex_ne_of_lt index s.boxes 0 (by exact_mod_cast h)
      · have h0 : 0 ≤ index := le_trans (Int.ofNat_nonneg _) h
        obtain ⟨k, rfl⟩ := Int.eq_ofNat_of_zero_le h0
        have hk : s.boxes.length ≤ k := by exact_mod_cast h
        have hf := filterWithIndex_ne_eq_eraseIdx s.boxes 0 k
        simp only [Nat.zero_add] at hf
        simp only [handleDeleteBox]
        rw [hf]
        exact List.eraseIdx_of_length_le hk
    cases s
    simp only [handleDeleteBox] at key ⊢
    simp only [State.mk.injEq, true_and, and_true]
    exact key

/-- Instance of `handleDeleteBox_removes_entry`: a stale index on the empty list of
`loadedExample` changes nothing. -/
theorem handleDeleteBox_removes_entry_witness :
    handleDeleteBox loadedExample 3 = loadedExample :=
  (handleDeleteBox_removes_entry loadedExample 3).2
    (Or.inr (by rw [loadedExample_eq]; simp [State.initial]))

/-! ## Navigation -/

/-- C16: starting from `currentIndex = 0`, the initial value, a successful
`loadAnnotationData` stores the list and leaves `currentIndex` at the least position
whose image is not annotated when there is one, and at 0 when every image is annotated
or the list is empty; for `[A (annotated), B, C]` the index is 1. -/
theorem loadAnnotationData_initial_index (s : State) (data : AnnotationData)
    (h0 : s.currentIndex = 0) :
    (loadAnnotationData s (some data)).images = data.images ∧
    (∀ (i : ℕ) (d : ImageData), data.images[i]? = some d → d.has_annotation = false →
      (∀ (j : ℕ) (dj : ImageData), j < i → data.images[j]? = some dj →
        dj.has_annotation = true) →
      (loadAnnotationData s (some data)).currentIndex = i) ∧
    ((∀ d ∈ data.images, d.has_annotation = true) →
      (loadAnnotationData s (some data)).currentIndex = 0) ∧
    (loadAnnotationData State.initial (some
        { images :=
            [{ filename := "A", path := "/A", has_annotation := true },
             { filename := "B", path := "/B", has_annotation := false },
             { filename := "C", path := "/C", has_annotation := false }]
          annotated := 1 })).currentIndex = 1 := by
  refine ⟨?_, ?_, ?_, ?_⟩
  · simp only [loadAnnotationData]
    split <;> rfl
  · intro i d hd hfalse hmin
    obtain ⟨hlt, hget⟩ := List.getElem?_eq_some.mp hd
    have hfind : data.images.findIdx? (fun img => !img.has_annotation) = some i := by
      rw [List.findIdx?_eq_some_iff_getElem]
      refine ⟨hlt, ?_, ?_⟩
      · rw [hget, hfalse]
        rfl
      · intro j hji
        have hj := hmin j _ hji (List.getElem?_eq_getElem (Nat.lt_trans hji hlt))
        rw [hj]
        simp
    simp only [loadAnnotationData, hfind]
  · intro hall
    have hfind : data.images.findIdx? (fun img => !img.has_annotation) = none := by
      rw [List.findIdx?_eq_none_iff]
      intro x hx
      rw [hall x hx]
      rfl
    simp only [loadAnnotationData, hfind, h0]
  · rfl

/-- Instance of `loadAnnotationData_initial_index`: a list whose images are all
annotated keeps the initial index 0. -/
theorem loadAnnotationData_initial_index_witness :
    (loadAnnotationData State.initial (some
        { images := [{ filename := "A", path := "/A", has_annotation := true }]
          annotated := 1 })).currentIndex = 0 :=
  (loadAnnotationData_initial_index State.initial
    { images := [{ filename := "A", path := "/A", has_annotation := true }]
      annotated := 1 } rfl).2.2.1 (by simp)

/-- C17: `handleNext` with `currentIndex < images.length - 1` moves to
`currentIndex + 1` and shows no message; otherwise, in particular on the last image, it
shows the message that all images are annotated and returns the state as it was, the
index included. -/
theorem handleNext_advances_or_reports (s : State) :
    ((s.currentIndex : ℤ) < (s.images.length : ℤ) - 1 →
      handleNext s = ({ s with currentIndex := s.currentIndex + 1, boxes := [] }, [])) ∧
    (¬ ((s.currentIndex : ℤ) < (s.images.length : ℤ) - 1) →
      handleNext s = (s, [Toast.allAnnotated])) ∧
    (s.currentIndex + 1 = s.images.length →
      (handleNext s).1.currentIndex = s.currentIndex ∧
        (handleNext s).2 = [Toast.allAnnotated]) := by
  refine ⟨?_, ?_, ?_⟩
  · intro h
    simp only [handleNext, h, if_true]
  · intro h
    simp only [handleNext, h, if_false]
  · intro h
    have hn : ¬ ((s.currentIndex : ℤ) < (s.images.length : ℤ) - 1) := by
      rw [← h]
      push_cast
      linarith
    simp only [handleNext, hn, if_false, and_self]

/-- Instance of `handleNext_advances_or_reports`: on the only image of
`drawingExample` the index stays 0 and the message is shown. -/
theorem handleNext_advances_or_reports_witness :
    (handleNext drawingExample).1.currentIndex = drawingExample.currentIndex ∧
      (handleNext drawingExample).2 = [Toast.allAnnotated] :=
  (handleNext_advances_or_reports drawingExample).2.2 rfl

/-! ## Double-precision rounding -/

/-- Rounding to the nearest integer moves a number by at most one half. -/
theorem roundHalfEven_err (x : ℚ) : |(roundHalfEven x : ℚ) - x| ≤ 1 / 2 := by
  have h1 : (⌊x⌋ : ℚ) ≤ x := Int.floor_le x
  have h2 : x < ⌊x⌋ + 1 := Int.lt_floor_add_one x
  unfold roundHalfEven
  rw [abs_le]
  split_ifs with a b c
  · constructor <;> linarith
  · push_cast
    constructor <;> linarith
  · constructor <;> linarith
  · push_cast
    constructor <;> linarith

/-- An integer closer than one half to `x` is the rounded value of `x`. -/
theorem roundHalfEven_eq_of_close (x : ℚ) (m : ℤ) (h : |x - m| < 1 / 2) :
    roundHalfEven x = m := by
  have h1 := roundHalfEven_err x
  rw [abs_le] at h1
  rw [abs_lt] at h
  have h2 : ((roundHalfEven x : ℤ) : ℚ) - m < 1 := by linarith
  have h3 : (-1 : ℚ) < ((roundHalfEven x : ℤ) : ℚ) - m := by linarith
  have h4 : roundHalfEven x - m < 1 := by exact_mod_cast h2
  have h5 : -1 < roundHalfEven x - m := by exact_mod_cast h3
  omega

/-- The rounded value of a non-negative number is non-negative. -/
theorem roundHalfEven_nonneg (x : ℚ) (hx : 0 ≤ x) : 0 ≤ roundHalfEven x := by
  have h0 : 0 ≤ ⌊x⌋ := Int.floor_nonneg.mpr hx
  unfold roundHalfEven
  split_ifs <;> omega

/-- The binary logarithm of a number between two consecutive powers of two. -/
theorem log_two_eq (r : ℚ) (k : ℤ) (hr : 0 < r) (h1 : (2 : ℚ) ^ k ≤ r)
    (h2 : r < (2 : ℚ) ^ (k + 1)) : Int.log 2 r = k := by
  have hb : 1 < 2 := by norm_num
  have a : k ≤ Int.log 2 r := by
    rw [← Int.zpow_le_iff_le_log hb hr]
    exact_mod_cast h1
  have b : Int.log 2 r < k + 1 := by
    rw [← Int.lt_zpow_iff_log_lt hb hr]
    exact_mod_cast h2
  omega

/-- Evaluation of `roundToDouble` in the normal range: with `2^k ≤ |q| < 2^(k+1)`, the
result is `m * 2^(k-52)` for the integer `m` closer than one half to `q / 2^(k-52)`. -/
theorem roundToDouble_eval (q v : ℚ) (k m : ℤ) (hk : -1022 ≤ k)
    (h1 : (2 : ℚ) ^ k ≤ |q|) (h2 : |q| < (2 : ℚ) ^ (k + 1))
    (hm : |q / 2 ^ (k - 52) - m| < 1 / 2) (hv : v = m * 2 ^ (k - 52)) :
    roundToDouble q = v := by
  have hpos : 0 < |q| := lt_of_lt_of_le (zpow_pos (by norm_num) k) h1
  have hlog := log_two_eq |q| k hpos h1 h2
  have he : ulpExponent q = k - 52 := by
    unfold ulpExponent
    rw [hlog]
    exact max_eq_left (by omega)
  unfold roundToDouble
  rw [he, roundHalfEven_eq_of_close _ m hm, hv]

/-- Halving a power of two lowers its exponent by one. -/
theorem two_zpow_div_two (e : ℤ) : (2 : ℚ) ^ e / 2 = 2 ^ (e - 1) := by
  rw [zpow_sub_one₀ (by norm_num : (2 : ℚ) ≠ 0), div_eq_mul_inv]

/-- Zero is a binary64 number. -/
theorem roundToDouble_zero : roundToDouble 0 = 0 := by
  simp [roundToDouble, roundHalfEven]

/-- The binary64 number nearest to a non-negative number is non-negative. -/
theorem roundToDouble_nonneg (q : ℚ) (hq : 0 ≤ q) : 0 ≤ roundToDouble q := by
  have hp : (0 : ℚ) < 2 ^ ulpExponent q := zpow_pos (by norm_num) _
  have h := roundHalfEven_nonneg (q / 2 ^ ulpExponent q) (div_nonneg hq hp.le)
  have h2 : (0 : ℚ) ≤ (roundHalfEven (q / 2 ^ ulpExponent q) : ℚ) := by exact_mod_cast h
  unfold roundToDouble
  exact mul_nonneg h2 hp.le

/-- The error of rounding to binary64: at most `2^-53` of the magnitude, or half the
smallest subnormal number. -/
theorem roundToDouble_err (q : ℚ) :
    |roundToDouble q - q| ≤ 2 ^ (-53 : ℤ) * |q| + 2 ^ (-1075 : ℤ) := by
  by_cases hq0 : q = 0
  · rw [hq0, roundToDouble_zero]
    simp only [sub_self, abs_zero, mul_zero, zero_add]
    positivity
  have hq : 0 < |q| := abs_pos.mpr hq0
  have hp : (0 : ℚ) < 2 ^ ulpExponent q := zpow_pos (by norm_num) _
  have herr := roundHalfEven_err (q / 2 ^ ulpExponent q)
  have h1 : |roundToDouble q - q| ≤ 2 ^ ulpExponent q / 2 := by
    have : roundToDouble q - q
        = ((roundHalfEven (q / 2 ^ ulpExponent q) : ℚ) - q / 2 ^ ulpExponent q)
          * 2 ^ ulpExponent q := by
      unfold roundToDouble
      field_simp
    rw [this, abs_mul, abs_of_pos hp]
    calc |(roundHalfEven (q / 2 ^ ulpExponent q) : ℚ) - q / 2 ^ ulpExponent q|
          * 2 ^ ulpExponent q ≤ 1 / 2 * 2 ^ ulpExponent q :=
          mul_le_mul_of_nonneg_right herr hp.le
      _ = 2 ^ ulpExponent q / 2 := by ring
  have h2 : (2 : ℚ) ^ ulpExponent q / 2 ≤ 2 ^ (-53 : ℤ) * |q| + 2 ^ (-1075 : ℤ) := by
    rw [two_zpow_div_two]
    unfold ulpExponent
    rcases le_total (Int.log 2 |q| - 52) (-1074) with h | h
    · rw [max_eq_right h]
      have e1 : (-1074 : ℤ) - 1 = -1075 := by norm_num
      rw [e1]
      have : (0 : ℚ) ≤ 2 ^ (-53 : ℤ) * |q| := by positivity
      linarith
    · rw [max_eq_left h]
      have hle : (2 : ℚ) ^ Int.log 2 |q| ≤ |q| := by
        have := Int.zpow_log_le_self (b := 2) (r := |q|) (by norm_num) hq
        exact_mod_cast this
      have hs : (2 : ℚ) ^ (Int.log 2 |q| - 52 - 1) = 2 ^ (-53 : ℤ) * 2 ^ Int.log 2 |q| := by
        rw [← zpow_add₀ (by norm_num : (2 : ℚ) ≠ 0)]
        congr 1
        ring
      rw [hs]
      have hc : (0 : ℚ) ≤ 2 ^ (-53 : ℤ) := by positivity
      have h3 := mul_le_mul_of_nonneg_left hle hc
      have : (0 : ℚ) < 2 ^ (-1075 : ℤ) := by positivity
      linarith
  exact le_trans h1 h2

/-- The rounding error with the relative part written as a fraction, and the absolute
part bounded by an `eta` that is at most `2^-1075`. -/
theorem roundToDouble_err_frac (q : ℚ) :
    |roundToDouble q - q| ≤ |q| / 9007199254740992 + 2 ^ (-1075 : ℤ) := by
  have h := roundToDouble_err q
  have e : (2 : ℚ) ^ (-53 : ℤ) = 1 / 9007199254740992 := by norm_num [zpow_neg]
  rw [e] at h
  linarith

/-- Half the smallest subnormal number is positive and far below `2^-100`. -/
theorem eta_bounds : (0 : ℚ) < 2 ^ (-1075 : ℤ) ∧
    (2 : ℚ) ^ (-1075 : ℤ) ≤ 1 / 1267650600228229401496703205376 := by
  constructor
  · positivity
  · have h : (2 : ℚ) ^ (-1075 : ℤ) ≤ 2 ^ (-100 : ℤ) :=
      zpow_le_zpow_right₀ (by norm_num) (by norm_num)
    have e : (2 : ℚ) ^ (-100 : ℤ) = 1 / 1267650600228229401496703205376 := by
      norm_num [zpow_neg]
    rw [e] at h
    exact h

/-! ## Progress -/

/-- The integer written by `toFixed(0)` for a non-negative number is the number
rounded to the nearest integer. -/
theorem toFixed0_eq_round (x : ℚ) (hx : 0 ≤ x) : toFixed0 x = round x := by
  simp only [toFixed0, not_lt.mpr hx, if_false, round_eq]

/-- The quotient 23/40 rounded to binary64. -/
theorem div64_23_40 : div64 23 40 = 2589569785738035 / 4503599627370496 :=
  roundToDouble_eval _ _ (-1) 5179139571476070 (by norm_num)
    (by norm_num [abs_of_pos]) (by norm_num [abs_of_pos])
    (by rw [abs_lt]; norm_num) (by norm_num)

/-- The product of the binary64 quotient 23/40 and 100, rounded to binary64: it lies
just below 57.5. -/
theorem mul64_23_40_100 :
    mul64 (2589569785738035 / 4503599627370496) 100
      = 8092405580431359 / 140737488355328 :=
  roundToDouble_eval _ _ 5 8092405580431359 (by norm_num)
    (by norm_num [abs_of_pos]) (by norm_num [abs_of_pos])
    (by rw [abs_lt]; norm_num) (by norm_num)

/-- C18 fails on the code: with 23 of 40 images annotated the page shows 57, while
`round(100 * 23 / 40)` is 58; and with no image the page computes no figure at all,
not 0. -/
theorem progress_twenty_three_of_forty :
    annotatedCount fortyImagesExample.images = 23 ∧
    fortyImagesExample.images.length = 40 ∧
    progress fortyImagesExample = some 57 ∧
    round ((100 : ℚ) * 23 / 40) = 58 ∧
    State.initial.images.length = 0 ∧
    progress State.initial = none := by
  have hc : annotatedCount fortyImagesExample.images = 23 := by decide
  have hl : fortyImagesExample.images.length = 40 := by decide
  refine ⟨hc, hl, ?_, ?_, rfl, rfl⟩
  · have hfix : toFixed0 (8092405580431359 / 140737488355328) = 57 := by
      simp only [toFixed0]
      rw [if_neg (by norm_num), Int.floor_eq_iff]
      norm_num
    simp only [progress, hl, hc]
    norm_num
    rw [div64_23_40, mul64_23_40_100, hfix]
  · rw [round_eq, Int.floor_eq_iff]
    norm_num

/-- The quotient 1/4 is a binary64 number. -/
theorem div64_1_4 : div64 1 4 = 1 / 4 :=
  roundToDouble_eval _ _ (-2) 4503599627370496 (by norm_num)
    (by norm_num [abs_of_pos]) (by norm_num [abs_of_pos])
    (by rw [abs_lt]; norm_num) (by norm_num)

/-- The product of 1/4 and 100 is the binary64 number 25. -/
theorem mul64_quarter_100 : mul64 (1 / 4) 100 = 25 :=
  roundToDouble_eval _ _ 4 7036874417766400 (by norm_num)
    (by norm_num [abs_of_pos]) (by norm_num [abs_of_pos])
    (by rw [abs_lt]; norm_num) (by norm_num)

/-- The double-precision product `(count / total) * 100` for `0 ≤ count ≤ total`,
`0 < total`, is non-negative and within `2^-45` of the exact percentage. -/
theorem mul64_div64_percent (c n : ℚ) (hc : 0 ≤ c) (hcn : c ≤ n) (hn : 0 < n) :
    0 ≤ mul64 (div64 c n) 100 ∧
      |mul64 (div64 c n) 100 - 100 * c / n| ≤ 1 / 2 ^ 45 := by
  have hx0 : 0 ≤ c / n := div_nonneg hc hn.le
  have hx1 : c / n ≤ 1 := (div_le_one hn).mpr hcn
  have hd0 : 0 ≤ div64 c n := roundToDouble_nonneg _ hx0
  have h1 := roundToDouble_err_frac (c / n)
  rw [abs_of_nonneg hx0] at h1
  have h2 := roundToDouble_err_frac (div64 c n * 100)
  rw [abs_of_nonneg (mul_nonneg hd0 (by norm_num))] at h2
  have hP0 : 0 ≤ mul64 (div64 c n) 100 :=
    roundToDouble_nonneg _ (mul_nonneg hd0 (by norm_num))
  obtain ⟨e0, e1⟩ := eta_bounds
  have hd : |div64 c n - c / n| ≤ c / n / 9007199254740992 + 2 ^ (-1075 : ℤ) := h1
  have hP : |mul64 (div64 c n) 100 - div64 c n * 100|
      ≤ div64 c n * 100 / 9007199254740992 + 2 ^ (-1075 : ℤ) := h2
  rw [abs_le] at hd hP
  refine ⟨hP0, ?_⟩
  have he : 100 * c / n = 100 * (c / n) := by ring
  rw [he, abs_le]
  constructor
  · norm_num at hd hP e1 ⊢
    linarith [hd.1, hd.2, hP.1, hP.2]
  · norm_num at hd hP e1 ⊢
    linarith [hd.1, hd.2, hP.1, hP.2]

/-- C18 as amended: for a non-empty list the progress figure is the integer written by
`toFixed(0)` for the binary64 product `(annotatedCount / total) * 100`, the quotient
rounded first; it is what `calculateProgress` returns for these counts, it lies in
`[0, 100]` and within `1/2 + 2^-45` of the exact percentage, so it is
`round(100 * annotatedCount / total)` unless the percentage is within `2^-45` of a
half.  One image of four gives 25.  `calculateProgress` returns 0 for `total = 0`;
the render computes no figure for an empty list. -/
theorem progress_is_rounded_double_product (s : State) :
    (s.images ≠ [] →
      progress s = some
        (toFixed0 (mul64 (div64 (annotatedCount s.images) s.images.length) 100)) ∧
      progress s = some (calculateProgress (annotatedCount s.images) s.images.length) ∧
      ∃ p : ℤ, progress s = some p ∧ 0 ≤ p ∧ p ≤ 100 ∧
        |(p : ℚ) - 100 * annotatedCount s.images / s.images.length| ≤ 1 / 2 + 1 / 2 ^ 45) ∧
    (∀ current total : ℚ, total ≠ 0 →
      calculateProgress current total = Math.round (mul64 (div64 current total) 100)) ∧
    (∀ current : ℚ, calculateProgress current 0 = 0) ∧
    calculateProgress 1 4 = 25 ∧
    progress fourImagesExample = some 25 ∧
    (s.images = [] → progress s = none) := by
  have h25 : calculateProgress 1 4 = 25 := by
    simp only [calculateProgress]
    rw [if_neg (by norm_num), div64_1_4, mul64_quarter_100]
    simp only [Math.round]
    rw [Int.floor_eq_iff]
    norm_num
  refine ⟨?_, ?_, ?_, h25, ?_, ?_⟩
  · intro hne
    have hlen : ¬ s.images.length = 0 := fun h => hne (List.length_eq_zero.mp h)
    have hn : (0 : ℚ) < (s.images.length : ℚ) := by
      have : 0 < s.images.length := Nat.pos_of_ne_zero hlen
      exact_mod_cast this
    have hc : (0 : ℚ) ≤ (annotatedCount s.images : ℚ) := by positivity
    have hcn : (annotatedCount s.images : ℚ) ≤ (s.images.length : ℚ) := by
      have : annotatedCount s.images ≤ s.images.length := List.length_filter_le _ _
      exact_mod_cast this
    obtain ⟨hP0, hP⟩ := mul64_div64_percent _ _ hc hcn hn
    have hprog : progress s = some
        (toFixed0 (mul64 (div64 (annotatedCount s.images) s.images.length) 100)) := by
      simp only [progress, hlen, if_false]
    have hfix : toFixed0 (mul64 (div64 (annotatedCount s.images) s.images.length) 100)
        = ⌊mul64 (div64 (annotatedCount s.images) s.images.length) 100 + 1 / 2⌋ := by
      simp only [toFixed0, not_lt.mpr hP0, if_false]
    have hn0 : (s.images.length : ℚ) ≠ 0 := ne_of_gt hn
    refine ⟨hprog, ?_, _, hprog, ?_, ?_, ?_⟩
    · rw [hprog, hfix]
      simp only [calculateProgress, hn0, if_false, Math.round]
    · rw [hfix]
      exact Int.floor_nonneg.mpr (by linarith)
    · rw [hfix]
      have hx1 : (100 : ℚ) * annotatedCount s.images / s.images.length ≤ 100 := by
        rw [mul_div_assoc]
        have := (div_le_one hn).mpr hcn
        linarith
      rw [abs_le] at hP
      have hlt : mul64 (div64 (annotatedCount s.images) s.images.length) 100 + 1 / 2
          < ((101 : ℤ) : ℚ) := by
        norm_num at hP ⊢
        linarith [hP.2]
      have := Int.floor_lt.mpr hlt
      omega
    · rw [hfix]
      have hf1 := Int.floor_le
        (mul64 (div64 (annotatedCount s.images) s.images.length) 100 + 1 / 2)
      have hf2 := Int.lt_floor_add_one
        (mul64 (div64 (annotatedCount s.images) s.images.length) 100 + 1 / 2)
      rw [abs_le] at hP ⊢
      constructor <;> linarith [hP.1, hP.2]
  · intro current total ht
    simp only [calculateProgress, ht, if_false]
  · intro current
    simp only [calculateProgress, if_true]
  · have hc : annotatedCount fourImagesExample.images = 1 := rfl
    have hl : fourImagesExample.images.length = 4 := rfl
    have hfix : toFixed0 25 = 25 := by
      simp only [toFixed0]
      rw [if_neg (by norm_num), Int.floor_eq_iff]
      norm_num
    simp only [progress, hl, hc]
    norm_num
    rw [div64_1_4, mul64_quarter_100, hfix]
  · intro he
    simp only [progress, he, List.length_nil, if_true]

/-- Instance of `progress_is_rounded_double_product`: one annotated image of four
shows what `calculateProgress` returns for 1 and 4. -/
theorem progress_is_rounded_double_product_witness :
    progress fourImagesExample = some
      (calculateProgress (annotatedCount fourImagesExample.images)
        fourImagesExample.images.length) :=
  ((progress_is_rounded_double_product fourImagesExample).1
    (by simp [fourImagesExample, State.initial])).2.1

/-! ## Saving -/

/-- C19: `handleSave` with an empty `boxes` only shows the message asking for a box: no
request is passed to `axios.post`, and the state, with its index, its image list and
annotation flags and its box list, is returned as it was. -/
theorem handleSave_empty_boxes_rejected (s : State) (postSucceeds : Bool)
    (h : s.boxes = []) :
    (handleSave s postSucceeds).request = none ∧
    (handleSave s postSucceeds).state = s ∧
    (handleSave s postSucceeds).state.currentIndex = s.currentIndex ∧
    (handleSave s postSucceeds).state.images = s.images ∧
    (handleSave s postSucceeds).state.boxes = s.boxes ∧
    (handleSave s postSucceeds).toasts = [Toast.drawAtLeastOne] := by
  simp [handleSave, h]

/-- Instance of `handleSave_empty_boxes_rejected` on `fourImagesExample`, which has no
box. -/
theorem handleSave_empty_boxes_rejected_witness :
    (handleSave fourImagesExample true).request = none ∧
      (handleSave fourImagesExample true).state = fourImagesExample :=
  ⟨(handleSave_empty_boxes_rejected fourImagesExample true rfl).1,
   (handleSave_empty_boxes_rejected fourImagesExample true rfl).2.1⟩

/-- C20: after a save whose request succeeds, made at index `i` with a non-empty
`boxes`, a loaded image and an entry `d` at `i`: the entry at `i` is `d` with
`has_annotation = true`, every other entry is as before, the index is the one
`handleNext` gives, and the annotated count is one more than before when `d` was not
annotated and the same when it was. -/
theorem handleSave_success_marks_and_advances (s : State) (img : HTMLImage)
    (d : ImageData) (hb : s.boxes ≠ []) (hi : s.currentImage = some img)
    (hd : s.images[s.currentIndex]? = some d) :
    (handleSave s true).state.images[s.currentIndex]?
      = some { d with has_annotation := true } ∧
    (∀ j : ℕ, j ≠ s.currentIndex →
      (handleSave s true).state.images[j]? = s.images[j]?) ∧
    (handleSave s true).state.images.length = s.images.length ∧
    (handleSave s true).state.currentIndex = (handleNext s).1.currentIndex ∧
    annotatedCount (handleSave s true).state.images
      = annotatedCount s.images + (if d.has_annotation = true then 0 else 1) := by
  obtain ⟨hlt, hget⟩ := List.getElem?_eq_some.mp hd
  have himg : (handleSave s true).state.images
      = s.images.set s.currentIndex { d with has_annotation := true } := by
    simp only [handleSave, List.length_eq_zero, hb, if_false, hi, hd, if_true]
  refine ⟨?_, ?_, ?_, ?_, ?_⟩
  · rw [himg, List.getElem?_set_self hlt]
  · intro j hj
    rw [himg, List.getElem?_set_ne (Ne.symm hj)]
  · rw [himg, List.length_set]
  · simp only [handleSave, List.length_eq_zero, hb, if_false, hi, hd, if_true]
  · have hle := List.boole_getElem_le_countP (fun img : ImageData => img.has_annotation)
      s.images s.currentIndex hlt
    rw [himg]
    simp only [annotatedCount, ← List.countP_eq_length_filter]
    rw [List.countP_set _ _ _ _ hlt]
    rw [hget] at hle ⊢
    cases ha : d.has_annotation
    · simp [ha]
    · simp only [ha, if_true] at hle ⊢
      omega

/-- Instance of `handleSave_success_marks_and_advances`: saving the committed box of
`drawingExample` marks its only image. -/
theorem handleSave_success_marks_and_advances_witness :
    (handleSave (handleMouseUp drawingExample) true).state.images[0]?
      = some { filename := "a.jpg", path := "/files/a.jpg", has_annotation := true } :=
  (handleSave_success_marks_and_advances (handleMouseUp drawingExample)
    { width := 640, height := 480 }
    { filename := "a.jpg", path := "/files/a.jpg", has_annotation := false }
    (by norm_num [handleMouseUp, drawingExample, State.initial]) rfl rfl).1

/-- C21: when the save request fails, `handleSave` returns the state exactly as it
was: the image list with every `has_annotation` flag, `currentIndex` and `boxes` are
unchanged, and with a non-empty `boxes` the only trace is the error message. -/
theorem handleSave_failure_keeps_state (s : State) :
    (handleSave s false).state = s ∧
    (handleSave s false).state.images = s.images ∧
    (handleSave s false).state.currentIndex = s.currentIndex ∧
    (handleSave s false).state.boxes = s.boxes ∧
    (s.boxes ≠ [] → (handleSave s false).toasts = [Toast.failedToSave]) := by
  by_cases hb : s.boxes = []
  · refine ⟨?_, ?_, ?_, ?_, fun h => absurd hb h⟩ <;> simp [handleSave, hb]
  · cases hi : s.currentImage with
    | none => refine ⟨?_, ?_, ?_, ?_, fun _ => ?_⟩ <;> simp [handleSave, hb, hi]
    | some img =>
      cases hd : s.images[s.currentIndex]? with
      | none => refine ⟨?_, ?_, ?_, ?_, fun _ => ?_⟩ <;> simp [handleSave, hb, hi, hd]
      | some d => refine ⟨?_, ?_, ?_, ?_, fun _ => ?_⟩ <;> simp [handleSave, hb, hi, hd]

/-- Instance of `handleSave_failure_keeps_state`: a failed save of `twoImagesExample`
changes nothing and shows the error message. -/
theorem handleSave_failure_keeps_state_witness :
    (handleSave twoImagesExample false).state = twoImagesExample ∧
      (handleSave twoImagesExample false).toasts = [Toast.failedToSave] :=
  ⟨(handleSave_failure_keeps_state twoImagesExample).1,
   (handleSave_failure_keeps_state twoImagesExample).2.2.2.2
     (by simp [twoImagesExample])⟩

/-! ## Skipping and jumping -/

/-- The function `handleNext` never changes the image list. -/
theorem handleNext_images (s : State) : (handleNext s).1.images = s.images := by
  unfold handleNext
  split_ifs <;> rfl

/-- C22: `handleSkip` leaves the state that `handleNext` gives, so the index moves
exactly as `handleNext` moves it; it passes no request to the storage endpoint, and
the image list with every `has_annotation` flag is unchanged. -/
theorem handleSkip_moves_as_handleNext (s : State) :
    (handleSkip s).state = (handleNext s).1 ∧
    (handleSkip s).state.currentIndex = (handleNext s).1.currentIndex ∧
    (handleSkip s).request = none ∧
    (handleSkip s).state.images = s.images ∧
    (handleSkip s).state.images.map (fun img => img.has_annotation)
      = s.images.map (fun img => img.has_annotation) := by
  have h : (handleSkip s).state.images = s.images := handleNext_images s
  exact ⟨rfl, rfl, rfl, h, by rw [h]⟩

/-- Instance of `handleSkip_moves_as_handleNext`: skipping the first of the two images
of `twoImagesExample` moves to index 1 without a request. -/
theorem handleSkip_moves_as_handleNext_witness :
    (handleSkip twoImagesExample).state.currentIndex = 1 ∧
      (handleSkip twoImagesExample).request = none :=
  ⟨((handleSkip_moves_as_handleNext twoImagesExample).2.1).trans (by
      simp [handleNext, twoImagesExample, loadedExample_eq, State.initial]),
   (handleSkip_moves_as_handleNext twoImagesExample).2.2.1⟩

/-- C23: a click on entry `i` of the image list, `i` a valid index, sets
`currentIndex` to `i` whether or not that image is annotated, and leaves the image
list with every `has_annotation` flag unchanged. -/
theorem imageList_onClick_sets_index (s : State) (i : ℕ) (_hi : i < s.images.length) :
    (imageList.onClick s i).currentIndex = i ∧
    (imageList.onClick s i).images = s.images ∧
    (imageList.onClick s i).images.map (fun img => img.has_annotation)
      = s.images.map (fun img => img.has_annotation) :=
  ⟨rfl, rfl, rfl⟩

/-- Instance of `imageList_onClick_sets_index`: a click on the annotated first entry
of `fourImagesExample` after a move to its last entry. -/
theorem imageList_onClick_sets_index_witness :
    (imageList.onClick (imageList.onClick fourImagesExample 3) 0).currentIndex = 0 ∧
      (imageList.onClick (imageList.onClick fourImagesExample 3) 0).images
        = (imageList.onClick fourImagesExample 3).images :=
  ⟨(imageList_onClick_sets_index (imageList.onClick fourImagesExample 3) 0
      (by simp [imageList.onClick, fourImagesExample, State.initial])).1,
   (imageList_onClick_sets_index (imageList.onClick fourImagesExample 3) 0
      (by simp [imageList.onClick, fourImagesExample, State.initial])).2.1⟩

/-! ## The end of a gesture -/

/-- A press that is accepted or ignored changes neither `boxes` nor `currentBox`. -/
theorem handleMouseDown_keeps_boxes (s s1 : State) (rect : DOMRect) (e : MouseEvent)
    (h : handleMouseDown s rect e = .ok s1) :
    s1.boxes = s.boxes ∧ s1.currentBox = s.currentBox ∧ s1.currentImage = s.currentImage := by
  by_cases h1 : (imagePoint s rect e).x ≥ 0
  · cases hi : s.currentImage with
    | none => simp [handleMouseDown, h1, hi] at h
    | some img =>
      by_cases h2 : (imagePoint s rect e).x ≤ img.width ∧ (imagePoint s rect e).y ≥ 0 ∧
          (imagePoint s rect e).y ≤ img.height
      · simp only [handleMouseDown, h1, hi, h2, if_true, and_self] at h
        injection h with h
        rw [← h]
        exact ⟨rfl, rfl, rfl⟩
      · simp only [handleMouseDown, h1, hi, h2, if_true, if_false] at h
        injection h with h
        rw [← h]
        exact ⟨rfl, rfl, hi⟩
  · simp only [handleMouseDown, h1, if_false] at h
    injection h with h
    rw [← h]
    exact ⟨rfl, rfl, rfl⟩

/-- C27: `handleMouseUp` always ends with `isDrawing = false`, no anchor and no
provisional box, and either keeps `boxes` or appends one box.  Hence a release
repeated without a new gesture commits nothing, and a press followed at once by a
release, in a state without provisional box such as the one a release leaves, commits
nothing. -/
theorem handleMouseUp_ends_gesture (s : State) :
    (handleMouseUp s).isDrawing = false ∧
    (handleMouseUp s).startPos = none ∧
    (handleMouseUp s).currentBox = none ∧
    ((handleMouseUp s).boxes = s.boxes ∨ ∃ b, (handleMouseUp s).boxes = s.boxes ++ [b]) ∧
    (handleMouseUp (handleMouseUp s)).boxes = (handleMouseUp s).boxes ∧
    (∀ (rect : DOMRect) (e : MouseEvent) (s2 : State),
      handleMouseDown (handleMouseUp s) rect e = .ok s2 →
      (handleMouseUp s2).boxes = (handleMouseUp s).boxes) ∧
    (∀ (rect : DOMRect) (e : MouseEvent) (s2 : State), s.currentBox = none →
      handleMouseDown s rect e = .ok s2 → (handleMouseUp s2).boxes = s.boxes) := by
  have hnone : ∀ t : State, t.currentBox = none → (handleMouseUp t).boxes = t.boxes := by
    intro t ht
    simp only [handleMouseUp, ht]
  have hclick : ∀ (t : State) (rect : DOMRect) (e : MouseEvent) (t2 : State),
      t.currentBox = none → handleMouseDown t rect e = .ok t2 →
      (handleMouseUp t2).boxes = t.boxes := by
    intro t rect e t2 ht hdown
    obtain ⟨hb, hc, _⟩ := handleMouseDown_keeps_boxes t t2 rect e hdown
    rw [hnone t2 (hc.trans ht), hb]
  refine ⟨rfl, rfl, rfl, ?_, hnone _ rfl, ?_, ?_⟩
  · unfold handleMouseUp
    cases hcb : s.currentBox with
    | none => exact Or.inl rfl
    | some cb =>
      by_cases hbig : cb.width > 10 ∧ cb.height > 10
      · right
        exact ⟨cb, by simp only [hbig, and_self, if_true]⟩
      · left
        simp only [hbig, if_false]
  · intro rect e s2 hdown
    exact hclick (handleMouseUp s) rect e s2 rfl hdown
  · intro rect e s2 hcb hdown
    exact hclick s rect e s2 hcb hdown

/-- Instance of `handleMouseUp_ends_gesture`: a single click on the idle
`loadedExample`, at the canvas position `(100, 100)`, commits nothing. -/
theorem handleMouseUp_ends_gesture_witness :
    (handleMouseUp
      { loadedExample with isDrawing := true, startPos := some { x := 20, y := 40 } }).boxes
      = loadedExample.boxes :=
  (handleMouseUp_ends_gesture loadedExample).2.2.2.2.2.2 { left := 0, top := 0 }
    { clientX := 100, clientY := 100 } _ (by rw [loadedExample_eq]; rfl)
    (by
      rw [loadedExample_eq]
      simp only [handleMouseDown, imagePoint, State.initial]
      norm_num)

/-! ## The fitted image -/

/-- The rounding error with both parts written as fractions. -/
theorem roundToDouble_err_coarse (q : ℚ) :
    |roundToDouble q - q|
      ≤ |q| / 9007199254740992 + 1 / 1267650600228229401496703205376 := by
  have h := roundToDouble_err_frac q
  have e := eta_bounds.2
  linarith

/-- The quotient 800/1060 rounded to binary64. -/
theorem div64_800_1060 : div64 800 1060 = 3398943114996601 / 4503599627370496 :=
  roundToDouble_eval _ _ (-1) (6797886229993202) (by norm_num)
    (by norm_num [abs_of_pos]) (by norm_num [abs_of_pos])
    (by rw [abs_lt]; norm_num) (by norm_num)

/-- The quotient 600/600 is the binary64 number 1. -/
theorem div64_600_600 : div64 600 600 = 1 :=
  roundToDouble_eval _ _ (0) (4503599627370496) (by norm_num)
    (by norm_num [abs_of_pos]) (by norm_num [abs_of_pos])
    (by rw [abs_lt]; norm_num) (by norm_num)

/-- The product of 1060 and the binary64 scale 800/1060, rounded to binary64: it lies
just above 800. -/
theorem mul64_1060_scale :
    mul64 1060 (3398943114996601 / 4503599627370496)
      = 7036874417766401 / 8796093022208 :=
  roundToDouble_eval _ _ (9) (7036874417766401) (by norm_num)
    (by norm_num [abs_of_pos]) (by norm_num [abs_of_pos])
    (by rw [abs_lt]; norm_num) (by norm_num)

/-- The difference of 800 and the scaled width is the binary64 number `-2^-43`. -/
theorem sub64_800_scaled :
    sub64 800 (7036874417766401 / 8796093022208) = -1 / 8796093022208 :=
  roundToDouble_eval _ _ (-43) (-4503599627370496) (by norm_num)
    (by norm_num [abs_of_neg]) (by norm_num [abs_of_neg])
    (by rw [abs_lt]; norm_num) (by norm_num)

/-- Half of `-2^-43` is the binary64 number `-2^-44`. -/
theorem div64_diff_2 : div64 (-1 / 8796093022208) 2 = -1 / 17592186044416 :=
  roundToDouble_eval _ _ (-44) (-4503599627370496) (by norm_num)
    (by norm_num [abs_of_neg]) (by norm_num [abs_of_neg])
    (by rw [abs_lt]; norm_num) (by norm_num)

/-- C28 fails on the code: for a 1060 by 600 image on the 800 by 600 canvas the scale
is the binary64 quotient 800/1060, the scaled width 1060 * scale rounds to a number
above 800, and the stored `offset.x` is `-2^-44`, which is negative. -/
theorem loadImage_onload64_negative_offset :
    (loadImage.onload64 State.initial { width := 1060, height := 600 }
        (some { width := 800, height := 600 })).scale
      = 3398943114996601 / 4503599627370496 ∧
    (loadImage.onload64 State.initial { width := 1060, height := 600 }
        (some { width := 800, height := 600 })).offset.x = -1 / 17592186044416 ∧
    (loadImage.onload64 State.initial { width := 1060, height := 600 }
        (some { width := 800, height := 600 })).offset.x < 0 := by
  have hs : min (min (3398943114996601 / 4503599627370496 : ℚ) 1) 1
      = 3398943114996601 / 4503599627370496 := by
    rw [min_eq_left (by norm_num), min_eq_left (by norm_num)]
  have hx : (loadImage.onload64 State.initial { width := 1060, height := 600 }
        (some { width := 800, height := 600 })).offset.x = -1 / 17592186044416 := by
    simp only [loadImage.onload64, div64_800_1060, div64_600_600, hs, mul64_1060_scale,
      sub64_800_scaled, div64_diff_2]
  refine ⟨?_, hx, ?_⟩
  · simp only [loadImage.onload64, div64_800_1060, div64_600_600, hs]
  · rw [hx]
    norm_num

/-- One axis of the fit in double precision: for an image side `iw` and a canvas side
`sw` between 1 and `2^31`, and a scale `k` between 0 and the binary64 quotient
`sw / iw`, the offset `(sw - iw * k) / 2` computed in binary64 is at least
`-sw / 2^50`, and offset plus `iw * k` is at most `sw + sw / 2^50`. -/
theorem fit_axis64 (iw sw k : ℚ) (hiw1 : 1 ≤ iw) (hiw2 : iw ≤ 2147483648)
    (hsw1 : 1 ≤ sw) (_hsw2 : sw ≤ 2147483648) (hk0 : 0 ≤ k) (hk : k ≤ div64 sw iw) :
    -(sw / 2 ^ 50) ≤ div64 (sub64 sw (mul64 iw k)) 2 ∧
      div64 (sub64 sw (mul64 iw k)) 2 + iw * k ≤ sw + sw / 2 ^ 50 := by
  have hiw0 : 0 < iw := by linarith
  have hsw0 : 0 < sw := by linarith
  have hq0 : 0 < sw / iw := div_pos hsw0 hiw0
  -- the scale
  have hK := roundToDouble_err_coarse (sw / iw)
  rw [abs_of_pos hq0, abs_le] at hK
  have hKle : div64 sw iw
      ≤ sw / iw + sw / iw / 9007199254740992
        + 1 / 1267650600228229401496703205376 := by
    have := hK.2
    unfold div64
    linarith
  have hcancel : iw * (sw / iw) = sw := by field_simp
  have hp0 : 0 ≤ iw * k := mul_nonneg hiw0.le hk0
  have hp1 : iw * k ≤ sw + sw / 9007199254740992
      + iw / 1267650600228229401496703205376 := by
    have h1 : iw * k ≤ iw * div64 sw iw := mul_le_mul_of_nonneg_left hk hiw0.le
    have h2 : iw * div64 sw iw ≤ iw * (sw / iw + sw / iw / 9007199254740992
        + 1 / 1267650600228229401496703205376) :=
      mul_le_mul_of_nonneg_left hKle hiw0.le
    have h3 : iw * (sw / iw + sw / iw / 9007199254740992
        + 1 / 1267650600228229401496703205376)
        = iw * (sw / iw) + iw * (sw / iw) / 9007199254740992
          + iw / 1267650600228229401496703205376 := by ring
    rw [h3, hcancel] at h2
    linarith
  -- the scaled side
  have hW := roundToDouble_err_coarse (iw * k)
  rw [abs_of_nonneg hp0, abs_le] at hW
  have hW1 : iw * k - iw * k / 9007199254740992
      - 1 / 1267650600228229401496703205376 ≤ mul64 iw k := by
    have := hW.1
    unfold mul64
    linarith
  have hW2 : mul64 iw k ≤ iw * k + iw * k / 9007199254740992
      + 1 / 1267650600228229401496703205376 := by
    have := hW.2
    unfold mul64
    linarith
  -- the difference
  have hd1 : -(2 * sw) ≤ sw - mul64 iw k := by linarith
  have hd2 : sw - mul64 iw k ≤ 2 * sw := by linarith
  have hdabs : |sw - mul64 iw k| ≤ 2 * sw := abs_le.mpr ⟨hd1, hd2⟩
  have hD := roundToDouble_err_coarse (sw - mul64 iw k)
  rw [abs_le] at hD
  have hD1 : sw - mul64 iw k - 2 * sw / 9007199254740992
      - 1 / 1267650600228229401496703205376 ≤ sub64 sw (mul64 iw k) := by
    have := hD.1
    unfold sub64
    linarith
  have hD2 : sub64 sw (mul64 iw k) ≤ sw - mul64 iw k + 2 * sw / 9007199254740992
      + 1 / 1267650600228229401496703205376 := by
    have := hD.2
    unfold sub64
    linarith
  have hDabs : |sub64 sw (mul64 iw k) / 2| ≤ 2 * sw := by
    rw [abs_le]
    constructor <;> linarith
  -- the half
  have hO := roundToDouble_err_coarse (sub64 sw (mul64 iw k) / 2)
  rw [abs_le] at hO
  have hO1 : sub64 sw (mul64 iw k) / 2 - 2 * sw / 9007199254740992
      - 1 / 1267650600228229401496703205376 ≤ div64 (sub64 sw (mul64 iw k)) 2 := by
    have := hO.1
    unfold div64
    linarith
  have hO2 : div64 (sub64 sw (mul64 iw k)) 2
      ≤ sub64 sw (mul64 iw k) / 2 + 2 * sw / 9007199254740992
        + 1 / 1267650600228229401496703205376 := by
    have := hO.2
    unfold div64
    linarith
  constructor
  · norm_num at *
    linarith
  · norm_num at *
    linarith

/-- C28 as amended: for image and canvas sides between 1 and `2^31`, after the `onload`
callback computed in binary64 the scale lies in `(0, 1]` and the fitted image lies
inside the canvas up to rounding: `offset.x ≥ -sw/2^50`, `offset.y ≥ -sh/2^50`,
`offset.x + iw*scale ≤ sw + sw/2^50` and `offset.y + ih*scale ≤ sh + sh/2^50`; so every
image point of `[0, iw] x [0, ih]` is placed within that margin of `[0, sw] x [0, sh]`. -/
theorem loadImage_onload64_inside_canvas_up_to_rounding (s : State) (img : HTMLImage)
    (c : Canvas) (hiw : 1 ≤ img.width ∧ img.width ≤ 2147483648)
    (hih : 1 ≤ img.height ∧ img.height ≤ 2147483648)
    (hsw : 1 ≤ c.width ∧ c.width ≤ 2147483648)
    (hsh : 1 ≤ c.height ∧ c.height ≤ 2147483648) :
    (0 < (loadImage.onload64 s img (some c)).scale ∧
      (loadImage.onload64 s img (some c)).scale ≤ 1) ∧
    (-(c.width / 2 ^ 50) ≤ (loadImage.onload64 s img (some c)).offset.x ∧
      -(c.height / 2 ^ 50) ≤ (loadImage.onload64 s img (some c)).offset.y ∧
      (loadImage.onload64 s img (some c)).offset.x
        + img.width * (loadImage.onload64 s img (some c)).scale
          ≤ c.width + c.width / 2 ^ 50 ∧
      (loadImage.onload64 s img (some c)).offset.y
        + img.height * (loadImage.onload64 s img (some c)).scale
          ≤ c.height + c.height / 2 ^ 50) ∧
    (∀ p : Pos, 0 ≤ p.x → p.x ≤ img.width → 0 ≤ p.y → p.y ≤ img.height →
      (-(c.width / 2 ^ 50)
          ≤ (loadImage.onload64 s img (some c)).offset.x
            + p.x * (loadImage.onload64 s img (some c)).scale ∧
        (loadImage.onload64 s img (some c)).offset.x
            + p.x * (loadImage.onload64 s img (some c)).scale
          ≤ c.width + c.width / 2 ^ 50) ∧
      (-(c.height / 2 ^ 50)
          ≤ (loadImage.onload64 s img (some c)).offset.y
            + p.y * (loadImage.onload64 s img (some c)).scale ∧
        (loadImage.onload64 s img (some c)).offset.y
            + p.y * (loadImage.onload64 s img (some c)).scale
          ≤ c.height + c.height / 2 ^ 50)) := by
  have hposX : 0 < div64 c.width img.width := by
    have hq0 : 0 < c.width / img.width := div_pos (by linarith [hsw.1]) (by linarith [hiw.1])
    have hq1 : 1 / 2147483648 ≤ c.width / img.width := by
      rw [le_div_iff₀ (by linarith [hiw.1])]
      linarith [hsw.1, hiw.2]
    have h := roundToDouble_err_coarse (c.width / img.width)
    rw [abs_of_pos hq0, abs_le] at h
    have := h.1
    unfold div64
    norm_num at *
    linarith
  have hposY : 0 < div64 c.height img.height := by
    have hq0 : 0 < c.height / img.height :=
      div_pos (by linarith [hsh.1]) (by linarith [hih.1])
    have hq1 : 1 / 2147483648 ≤ c.height / img.height := by
      rw [le_div_iff₀ (by linarith [hih.1])]
      linarith [hsh.1, hih.2]
    have h := roundToDouble_err_coarse (c.height / img.height)
    rw [abs_of_pos hq0, abs_le] at h
    have := h.1
    unfold div64
    norm_num at *
    linarith
  have hk0 : 0 < min (min (div64 c.width img.width) (div64 c.height img.height)) 1 :=
    lt_min (lt_min hposX hposY) one_pos
  have hkx : min (min (div64 c.width img.width) (div64 c.height img.height)) 1
      ≤ div64 c.width img.width := le_trans (min_le_left _ _) (min_le_left _ _)
  have hky : min (min (div64 c.width img.width) (div64 c.height img.height)) 1
      ≤ div64 c.height img.height := le_trans (min_le_left _ _) (min_le_right _ _)
  obtain ⟨x1, x2⟩ := fit_axis64 img.width c.width _ hiw.1 hiw.2 hsw.1 hsw.2 hk0.le hkx
  obtain ⟨y1, y2⟩ := fit_axis64 img.height c.height _ hih.1 hih.2 hsh.1 hsh.2 hk0.le hky
  simp only [loadImage.onload64]
  refine ⟨⟨hk0, min_le_right _ _⟩, ⟨x1, y1, x2, y2⟩, ?_⟩
  intro p hx0 hxw hy0 hyh
  have h1 : 0 ≤ p.x * min (min (div64 c.width img.width) (div64 c.height img.height)) 1 :=
    mul_nonneg hx0 hk0.le
  have h2 : p.x * min (min (div64 c.width img.width) (div64 c.height img.height)) 1
      ≤ img.width * min (min (div64 c.width img.width) (div64 c.height img.height)) 1 :=
    mul_le_mul_of_nonneg_right hxw hk0.le
  have h3 : 0 ≤ p.y * min (min (div64 c.width img.width) (div64 c.height img.height)) 1 :=
    mul_nonneg hy0 hk0.le
  have h4 : p.y * min (min (div64 c.width img.width) (div64 c.height img.height)) 1
      ≤ img.height * min (min (div64 c.width img.width) (div64 c.height img.height)) 1 :=
    mul_le_mul_of_nonneg_right hyh hk0.le
  refine ⟨⟨?_, ?_⟩, ?_, ?_⟩ <;> linarith

/-- Instance of `loadImage_onload64_inside_canvas_up_to_rounding`: the 1060 by 600
image on the 800 by 600 canvas. -/
theorem loadImage_onload64_inside_canvas_up_to_rounding_witness :
    -((800 : ℚ) / 2 ^ 50)
        ≤ (loadImage.onload64 State.initial { width := 1060, height := 600 }
          (some { width := 800, height := 600 })).offset.x ∧
      -((600 : ℚ) / 2 ^ 50)
        ≤ (loadImage.onload64 State.initial { width := 1060, height := 600 }
          (some { width := 800, height := 600 })).offset.y ∧
      (loadImage.onload64 State.initial { width := 1060, height := 600 }
          (some { width := 800, height := 600 })).offset.x
        + 1060 * (loadImage.onload64 State.initial { width := 1060, height := 600 }
          (some { width := 800, height := 600 })).scale ≤ 800 + 800 / 2 ^ 50 ∧
      (loadImage.onload64 State.initial { width := 1060, height := 600 }
          (some { width := 800, height := 600 })).offset.y
        + 600 * (loadImage.onload64 State.initial { width := 1060, height := 600 }
          (some { width := 800, height := 600 })).scale ≤ 600 + 600 / 2 ^ 50 :=
  (loadImage_onload64_inside_canvas_up_to_rounding State.initial
    { width := 1060, height := 600 } { width := 800, height := 600 }
    ⟨by norm_num, by norm_num⟩ ⟨by norm_num, by norm_num⟩ ⟨by norm_num, by norm_num⟩
    ⟨by norm_num, by norm_num⟩).2.1

/-! ## Changing image -/

/-- C24 fails on the code for a click on the image list: on `twoImagesExample` (index
0, one committed box) a click on entry 1 moves the index and asks for the image of
`b.jpg`; when that load fails the box drawn on the first image is still committed, and
a save then submits it under `b.jpg`.  The sibling path `handleNext` does empty
`boxes` on the same state. -/
theorem imageList_onClick_keeps_boxes_when_load_fails :
    (imageList.onClick twoImagesExample 1).currentIndex = 1 ∧
    useEffect.loadImage (imageList.onClick twoImagesExample 1)
      = some { filename := "b.jpg", path := "/files/b.jpg", has_annotation := false } ∧
    (loadImage.onerror (imageList.onClick twoImagesExample 1)
        { filename := "b.jpg", path := "/files/b.jpg", has_annotation := false }).1.boxes
      = [{ x := 10, y := 10, width := 90, height := 70, class_id := 0 }] ∧
    (handleSave (loadImage.onerror (imageList.onClick twoImagesExample 1)
        { filename := "b.jpg", path := "/files/b.jpg", has_annotation := false }).1
        true).request
      = some
        { filename := "b.jpg", split := "train"
          annotations := yoloBoxes
            [{ x := 10, y := 10, width := 90, height := 70, class_id := 0 }]
            { width := 640, height := 480 } } ∧
    (handleNext twoImagesExample).1.currentIndex = 1 ∧
    (handleNext twoImagesExample).1.boxes = [] := by
  refine ⟨rfl, ?_, rfl, ?_, ?_, ?_⟩
  · simp [useEffect.loadImage, imageList.onClick, twoImagesExample]
  · simp [handleSave, loadImage.onerror, imageList.onClick, twoImagesExample,
      loadedExample_eq, State.initial]
  · simp [handleNext, twoImagesExample, loadedExample_eq, State.initial]
  · simp [handleNext, twoImagesExample, loadedExample_eq, State.initial]

/-- C25 fails on the code: in `staleExample` the session is at index 3 with a 640 by
480 image shown at scale 1 and one committed box; when the load of another image, 1600
by 600, completes, the index is still 3 but the shown image, the scale and the box set
have all changed. -/
theorem loadImage_onload_stale_response_is_applied :
    (loadImage.onload staleExample { width := 1600, height := 600 }
        (some { width := 800, height := 600 })).currentIndex = 3 ∧
    staleExample.currentImage = some { width := 640, height := 480 } ∧
    (loadImage.onload staleExample { width := 1600, height := 600 }
        (some { width := 800, height := 600 })).currentImage
      = some { width := 1600, height := 600 } ∧
    staleExample.scale = 1 ∧
    (loadImage.onload staleExample { width := 1600, height := 600 }
        (some { width := 800, height := 600 })).scale = 1 / 2 ∧
    staleExample.boxes = [{ x := 10, y := 10, width := 90, height := 70, class_id := 0 }] ∧
    (loadImage.onload staleExample { width := 1600, height := 600 }
        (some { width := 800, height := 600 })).boxes = [] := by
  refine ⟨rfl, ?_, rfl, ?_, ?_, rfl, rfl⟩
  · simp [staleExample, loadedExample_eq]
  · simp [staleExample, loadedExample_eq]
  · simp only [loadImage.onload]
    norm_num

/-- C25 as amended: the `onload` callback makes no comparison with `currentIndex`.
Whatever the index of the session, the image whose load completes becomes the shown
image, the box set is emptied and, with the canvas present, the transform is computed
again for that image; the index and the image list are left as they are, and the
result for another index differs in the index only. -/
theorem loadImage_onload_ignores_index (s : State) (img : HTMLImage) (c : Canvas)
    (k : ℕ) :
    (loadImage.onload s img (some c)).currentImage = some img ∧
    (loadImage.onload s img (some c)).boxes = [] ∧
    (loadImage.onload s img (some c)).scale
      = min (min (c.width / img.width) (c.height / img.height)) 1 ∧
    (loadImage.onload s img (some c)).offset
      = { x := (c.width - img.width * (loadImage.onload s img (some c)).scale) / 2
          y := (c.height - img.height * (loadImage.onload s img (some c)).scale) / 2 } ∧
    (loadImage.onload s img (some c)).currentIndex = s.currentIndex ∧
    (loadImage.onload s img (some c)).images = s.images ∧
    loadImage.onload { s with currentIndex := k } img (some c)
      = { loadImage.onload s img (some c) with currentIndex := k } :=
  ⟨rfl, rfl, rfl, rfl, rfl, rfl, rfl⟩

/-- Instance of `loadImage_onload_ignores_index` on `staleExample`. -/
theorem loadImage_onload_ignores_index_witness :
    (loadImage.onload staleExample { width := 1600, height := 600 }
        (some { width := 800, height := 600 })).currentImage
      = some { width := 1600, height := 600 } ∧
    (loadImage.onload staleExample { width := 1600, height := 600 }
        (some { width := 800, height := 600 })).boxes = [] :=
  ⟨(loadImage_onload_ignores_index staleExample { width := 1600, height := 600 }
      { width := 800, height := 600 } 2).1,
   (loadImage_onload_ignores_index staleExample { width := 1600, height := 600 }
      { width := 800, height := 600 } 2).2.1⟩

/-- With no image ever loaded, a press that maps to a non-negative `x` makes
`handleMouseDown` throw. -/
theorem handleMouseDown_null_image_throws :
    handleMouseDown State.initial { left := 0, top := 0 } { clientX := 100, clientY := 100 }
      = .error JsError.typeError := by
  simp [handleMouseDown, imagePoint, State.initial]

/-- C26 fails on the code: after a click on entry 1 of `twoImagesExample` the image of
entry 0 is still the one held, both while the load of `b.jpg` is outstanding and after
it has failed; a press at the canvas position `(100, 100)` then starts a gesture
anchored at the image point `(20, 40)`. -/
theorem handleMouseDown_before_load_starts_gesture :
    useEffect.loadImage (imageList.onClick twoImagesExample 1)
      = some { filename := "b.jpg", path := "/files/b.jpg", has_annotation := false } ∧
    (imageList.onClick twoImagesExample 1).isDrawing = false ∧
    handleMouseDown (imageList.onClick twoImagesExample 1) { left := 0, top := 0 }
        { clientX := 100, clientY := 100 }
      = .ok { imageList.onClick twoImagesExample 1 with
              isDrawing := true, startPos := some { x := 20, y := 40 } } ∧
    handleMouseDown
        (loadImage.onerror (imageList.onClick twoImagesExample 1)
          { filename := "b.jpg", path := "/files/b.jpg", has_annotation := false }).1
        { left := 0, top := 0 } { clientX := 100, clientY := 100 }
      = .ok { imageList.onClick twoImagesExample 1 with
              isDrawing := true, startPos := some { x := 20, y := 40 } } := by
  have hdown : handleMouseDown (imageList.onClick twoImagesExample 1) { left := 0, top := 0 }
        { clientX := 100, clientY := 100 }
      = .ok { imageList.onClick twoImagesExample 1 with
              isDrawing := true, startPos := some { x := 20, y := 40 } } := by
    simp only [handleMouseDown, imagePoint, imageList.onClick, twoImagesExample,
      loadedExample_eq, State.initial]
    norm_num
  refine ⟨?_, ?_, hdown, hdown⟩
  · simp [useEffect.loadImage, imageList.onClick, twoImagesExample]
  · simp [imageList.onClick, twoImagesExample, loadedExample_eq, State.initial]

/-- C26 as amended: `handleMouseDown` tests the point against the image last loaded
and does not look at the index or the image list.  From an idle state holding such an
image, a press inside its bounds starts a gesture anchored at the point and a press
outside them returns the state as it was, without an exception; with no image held, a
press that maps to a negative `x` returns the state as it was.  A failed load changes
no state, and a click on the image list afterwards still moves the index. -/
theorem handleMouseDown_uses_held_image (s : State) (rect : DOMRect) (e : MouseEvent)
    (x y : ℚ) (_hidle : s.isDrawing = false) (_hsp : s.startPos = none)
    (hp : imagePoint s rect e = { x := x, y := y }) :
    (∀ img : HTMLImage, s.currentImage = some img →
      ((0 ≤ x ∧ x ≤ img.width) ∧ (0 ≤ y ∧ y ≤ img.height) →
        handleMouseDown s rect e
          = .ok { s with isDrawing := true, startPos := some { x := x, y := y } }) ∧
      (¬ ((0 ≤ x ∧ x ≤ img.width) ∧ (0 ≤ y ∧ y ≤ img.height)) →
        handleMouseDown s rect e = .ok s)) ∧
    (s.currentImage = none → x < 0 → handleMouseDown s rect e = .ok s) ∧
    (∀ (k : ℕ) (l : List ImageData) (img : HTMLImage), s.currentImage = some img →
      handleMouseDown { s with currentIndex := k, images := l } rect e
        = (handleMouseDown s rect e).map
            (fun t => { t with currentIndex := k, images := l })) ∧
    (∀ d : ImageData, (loadImage.onerror s d).1 = s) ∧
    (∀ (d : ImageData) (i : ℕ),
      (imageList.onClick (loadImage.onerror s d).1 i).currentIndex = i) := by
  refine ⟨?_, ?_, ?_, fun _ => rfl, fun _ _ => rfl⟩
  · intro img hi
    constructor
    · rintro ⟨⟨h1, h2⟩, h3, h4⟩
      simp only [handleMouseDown, hp, hi, ge_iff_le, h1, h2, h3, h4, and_self, if_true]
    · intro hn
      simp only [handleMouseDown, hp, hi, ge_iff_le]
      by_cases h1 : 0 ≤ x
      · have h2 : ¬ (x ≤ img.width ∧ 0 ≤ y ∧ y ≤ img.height) := by
          rintro ⟨u, v, w⟩
          exact hn ⟨⟨h1, u⟩, v, w⟩
        simp only [h1, h2, if_true, if_false]
      · simp only [h1, if_false]
  · intro _ hx
    simp only [handleMouseDown, hp, ge_iff_le, not_le.mpr hx, if_false]
  · intro k l img hi
    cases s with
    | mk images currentIndex currentImage boxes isDrawing startPos currentBox scale offset =>
      simp only at hi
      subst hi
      simp only [handleMouseDown, imagePoint]
      split_ifs <;> rfl

/-- Instance of `handleMouseDown_uses_held_image`: on `twoImagesExample` moved to
index 1, whose image never loaded, the press at `(100, 100)` starts a gesture. -/
theorem handleMouseDown_uses_held_image_witness :
    handleMouseDown (imageList.onClick twoImagesExample 1) { left := 0, top := 0 }
        { clientX := 100, clientY := 100 }
      = .ok { imageList.onClick twoImagesExample 1 with
              isDrawing := true, startPos := some { x := 20, y := 40 } } :=
  ((handleMouseDown_uses_held_image (imageList.onClick twoImagesExample 1)
    { left := 0, top := 0 } { clientX := 100, clientY := 100 } 20 40
    (by simp [imageList.onClick, twoImagesExample, loadedExample_eq, State.initial])
    (by simp [imageList.onClick, twoImagesExample, loadedExample_eq, State.initial])
    (by
      simp only [imagePoint, imageList.onClick, twoImagesExample, loadedExample_eq,
        State.initial]
      norm_num)).1 { width := 640, height := 480 }
    (by simp [imageList.onClick, twoImagesExample, loadedExample_eq])).1
    (by norm_num)

/-! ## The committed-set invariant -/

/-- Every element kept by `filterWithIndex` is an element of the list. -/
theorem filterWithIndex_subset {α : Type} (f : α → ℕ → Bool) (l : List α) (start : ℕ) :
    ∀ x ∈ filterWithIndex f start l, x ∈ l := by
  induction l generalizing start with
  | nil =>
    intro x hx
    exact hx
  | cons a rest ih =>
    intro x hx
    simp only [filterWithIndex] at hx
    split_ifs at hx with hf
    · rcases List.mem_cons.mp hx with h | h
      · rw [h]
        exact List.mem_cons_self _ _
      · exact List.mem_cons_of_mem _ (ih (start + 1) x h)
    · exact List.mem_cons_of_mem _ (ih (start + 1) x hx)

/-- The handler `handleMouseDown` keeps the editor invariant and does not throw while
an image is held. -/
theorem handleMouseDown_inv (img : HTMLImage) (s : State) (rect : DOMRect)
    (e : MouseEvent) (h : EditorInv img s) :
    ∃ s1, handleMouseDown s rect e = .ok s1 ∧ EditorInv img s1 := by
  obtain ⟨hi, hsp, hcb, hbx⟩ := h
  by_cases h1 : (imagePoint s rect e).x ≥ 0
  · by_cases h2 : (imagePoint s rect e).x ≤ img.width ∧ (imagePoint s rect e).y ≥ 0 ∧
        (imagePoint s rect e).y ≤ img.height
    · have hok : handleMouseDown s rect e = .ok
          { s with
            isDrawing := true
            startPos := some { x := (imagePoint s rect e).x, y := (imagePoint s rect e).y } } := by
        simp only [handleMouseDown, h1, hi, h2, if_true, and_self]
      refine ⟨_, hok, hi, ?_, hcb, hbx⟩
      intro a ha
      have ha2 : ({ x := (imagePoint s rect e).x, y := (imagePoint s rect e).y } : Pos)
          = a := Option.some.inj ha
      rw [← ha2]
      exact ⟨⟨h1, h2.1⟩, h2.2.1, h2.2.2⟩
    · refine ⟨s, ?_, hi, hsp, hcb, hbx⟩
      simp only [handleMouseDown, h1, hi, h2, if_true, if_false]
  · refine ⟨s, ?_, hi, hsp, hcb, hbx⟩
    simp only [handleMouseDown, h1, if_false]

/-- The handler `handleMouseMove` keeps the editor invariant. -/
theorem handleMouseMove_inv (img : HTMLImage) (s : State) (rect : DOMRect)
    (e : MouseEvent) (h : EditorInv img s) : EditorInv img (handleMouseMove s rect e) := by
  obtain ⟨hi, hsp, hcb, hbx⟩ := h
  cases hd : s.isDrawing with
  | false =>
    have hs : handleMouseMove s rect e = s := by
      simp only [handleMouseMove, hd]
    rw [hs]
    exact ⟨hi, hsp, hcb, hbx⟩
  | true =>
    cases hs : s.startPos with
    | none =>
      have hs2 : handleMouseMove s rect e = s := by
        simp only [handleMouseMove, hd, hs]
      rw [hs2]
      exact ⟨hi, hsp, hcb, hbx⟩
    | some a =>
      obtain ⟨⟨hx0, hxw⟩, hy0, hyh⟩ := hsp a hs
      have hw : 0 ≤ img.width := le_trans hx0 hxw
      have hh : 0 ≤ img.height := le_trans hy0 hyh
      obtain ⟨cx0, cxw⟩ := clamp_mem (imagePoint s rect e).x img.width hw
      obtain ⟨cy0, cyh⟩ := clamp_mem (imagePoint s rect e).y img.height hh
      obtain ⟨x1, x2, x3⟩ := min_add_abs_sub_le a.x _ img.width hx0 hxw cx0 cxw
      obtain ⟨y1, y2, y3⟩ := min_add_abs_sub_le a.y _ img.height hy0 hyh cy0 cyh
      simp only [handleMouseMove, hd, hs, hi]
      refine ⟨rfl, ?_, ?_, hbx⟩
      · intro a1 ha1
        exact hsp a1 (hs.trans ha1)
      · intro b hb
        have hb2 := Option.some.inj hb
        rw [← hb2]
        exact ⟨⟨x1, y1, x2, y2, x3, y3⟩, rfl⟩

/-- The handler `handleMouseUp` keeps the editor invariant. -/
theorem handleMouseUp_inv (img : HTMLImage) (s : State) (h : EditorInv img s) :
    EditorInv img (handleMouseUp s) := by
  obtain ⟨hi, _, hcb, hbx⟩ := h
  refine ⟨hi, fun a ha => Option.noConfusion ha, fun b hb => Option.noConfusion hb, ?_⟩
  intro b hb
  cases hc : s.currentBox with
  | none =>
    simp only [handleMouseUp, hc] at hb
    exact hbx b hb
  | some cb =>
    by_cases hbig : cb.width > 10 ∧ cb.height > 10
    · simp only [handleMouseUp, hc, hbig, and_self, if_true, List.mem_append,
        List.mem_singleton] at hb
      rcases hb with hb | hb
      · exact hbx b hb
      · obtain ⟨⟨b1, b2, _, _, b5, b6⟩, hcls⟩ := hcb cb hc
        rw [hb]
        exact ⟨hbig.1, hbig.2, hcls, b1, b2, b5, b6⟩
    · simp only [handleMouseUp, hc, hbig, if_false] at hb
      exact hbx b hb

/-- Every editor event is handled without an exception on a state that satisfies the
editor invariant, and the invariant holds again afterwards. -/
theorem EditorEvent.step_inv (img : HTMLImage) (s : State) (ev : EditorEvent)
    (h : EditorInv img s) : ∃ s1, EditorEvent.step s ev = .ok s1 ∧ EditorInv img s1 := by
  cases ev with
  | mouseDown rect e => exact handleMouseDown_inv img s rect e h
  | mouseMove rect e => exact ⟨_, rfl, handleMouseMove_inv img s rect e h⟩
  | mouseUp => exact ⟨_, rfl, handleMouseUp_inv img s h⟩
  | mouseLeave =>
    refine ⟨_, rfl, ?_⟩
    unfold canvas.onMouseLeave
    split_ifs
    · exact handleMouseUp_inv img s h
    · exact h
  | deleteBox index =>
    obtain ⟨hi, hsp, hcb, hbx⟩ := h
    refine ⟨_, rfl, hi, hsp, hcb, ?_⟩
    intro b hb
    exact hbx b (filterWithIndex_subset _ s.boxes 0 b hb)
  | clearBoxes =>
    obtain ⟨hi, hsp, hcb, _⟩ := h
    refine ⟨_, rfl, hi, hsp, hcb, ?_⟩
    intro b hb
    simp only [handleClearBoxes, List.not_mem_nil] at hb

/-- A sequence of editor events runs to the end without an exception on a state that
satisfies the editor invariant, and the invariant holds at the end. -/
theorem EditorEvent.run_inv (img : HTMLImage) (events : List EditorEvent) (s : State)
    (h : EditorInv img s) : ∃ s1, EditorEvent.run s events = .ok s1 ∧ EditorInv img s1 := by
  induction events generalizing s with
  | nil => exact ⟨s, rfl, h⟩
  | cons ev rest ih =>
    obtain ⟨s1, hstep, hinv⟩ := EditorEvent.step_inv img s ev h
    obtain ⟨s2, hrun, hinv2⟩ := ih s1 hinv
    refine ⟨s2, ?_, hinv2⟩
    simp only [EditorEvent.run, hstep]
    exact hrun

/-- C29: starting on a loaded image with no committed box and no gesture in progress,
any sequence of presses, moves, releases, pointer leaves, box deletions and clears
runs without an exception, and in the end every committed box has `width > 10`,
`height > 10`, class 0 and lies within the image: `0 ≤ x`, `0 ≤ y`, `x + width ≤ iw`
and `y + height ≤ ih`. -/
theorem committed_boxes_invariant (s0 : State) (img : HTMLImage)
    (events : List EditorEvent) (himg : s0.currentImage = some img)
    (hboxes : s0.boxes = []) (hsp : s0.startPos = none) (hcb : s0.currentBox = none) :
    ∃ s, EditorEvent.run s0 events = .ok s ∧
      ∀ b ∈ s.boxes, 10 < b.width ∧ 10 < b.height ∧ b.class_id = 0 ∧
        0 ≤ b.x ∧ 0 ≤ b.y ∧ b.x + b.width ≤ img.width ∧ b.y + b.height ≤ img.height := by
  have h0 : EditorInv img s0 := by
    refine ⟨himg, ?_, ?_, ?_⟩
    · intro a ha
      rw [hsp] at ha
      exact Option.noConfusion ha
    · intro b hb
      rw [hcb] at hb
      exact Option.noConfusion hb
    · intro b hb
      rw [hboxes] at hb
      exact absurd hb (List.not_mem_nil b)
  obtain ⟨s, hrun, _, _, _, hbx⟩ := EditorEvent.run_inv img events s0 h0
  exact ⟨s, hrun, hbx⟩

/-- Instance of `committed_boxes_invariant`: on `loadedExample` a drag from the image
point `(10, 10)` to `(100, 80)`, a stale deletion, and a single click. -/
theorem committed_boxes_invariant_witness :
    ∃ s, EditorEvent.run loadedExample
        [EditorEvent.mouseDown { left := 0, top := 0 } { clientX := 90, clientY := 70 },
         EditorEvent.mouseMove { left := 0, top := 0 } { clientX := 180, clientY := 140 },
         EditorEvent.mouseUp,
         EditorEvent.deleteBox 5,
         EditorEvent.mouseDown { left := 0, top := 0 } { clientX := 300, clientY := 300 },
         EditorEvent.mouseUp] = .ok s ∧
      ∀ b ∈ s.boxes, 10 < b.width ∧ 10 < b.height ∧ b.class_id = 0 ∧
        0 ≤ b.x ∧ 0 ≤ b.y ∧ b.x + b.width ≤ 640 ∧ b.y + b.height ≤ 480 :=
  committed_boxes_invariant loadedExample { width := 640, height := 480 } _
    (by rw [loadedExample_eq]) (by rw [loadedExample_eq]; rfl)
    (by rw [loadedExample_eq]; rfl) (by rw [loadedExample_eq]; rfl)

/-! ## The index invariant -/

/-- The function `handleNext` leaves a valid index valid. -/
theorem handleNext_index_lt (s : State) (h : s.currentIndex < s.images.length) :
    (handleNext s).1.currentIndex < s.images.length := by
  unfold handleNext
  split_ifs with hlt
  · simp only
    omega
  · exact h

/-- The handler `handleSave` keeps the length of the image list and leaves a valid
index valid, whatever the outcome of the request. -/
theorem handleSave_index_lt (s : State) (postSucceeds : Bool)
    (h : s.currentIndex < s.images.length) :
    (handleSave s postSucceeds).state.images.length = s.images.length ∧
      (handleSave s postSucceeds).state.currentIndex < s.images.length := by
  by_cases hb : s.boxes = []
  · simpa [handleSave, hb] using h
  · cases hi : s.currentImage with
    | none => simpa [handleSave, hb, hi] using h
    | some img =>
      cases hd : s.images[s.currentIndex]? with
      | none => simpa [handleSave, hb, hi, hd] using h
      | some d =>
        cases postSucceeds with
        | false => simpa [handleSave, hb, hi, hd] using h
        | true => simpa [handleSave, hb, hi, hd] using handleNext_index_lt s h

/-- A navigation event with a valid target keeps the length of the image list and
leaves a valid index valid. -/
theorem NavEvent.step_index_lt (n : ℕ) (s : State) (ev : NavEvent)
    (hlen : s.images.length = n) (h : s.currentIndex < s.images.length)
    (hv : ev.valid n) :
    (NavEvent.step s ev).images.length = n ∧
      (NavEvent.step s ev).currentIndex < (NavEvent.step s ev).images.length := by
  cases ev with
  | skip =>
    have himg : (handleSkip s).state.images = s.images := handleNext_images s
    have hidx := handleNext_index_lt s h
    simp only [NavEvent.step, himg]
    exact ⟨hlen, hidx⟩
  | save postSucceeds =>
    obtain ⟨h1, h2⟩ := handleSave_index_lt s postSucceeds h
    simp only [NavEvent.step]
    rw [h1]
    exact ⟨hlen, h2⟩
  | jump idx =>
    simp only [NavEvent.step, imageList.onClick]
    have hv2 : idx < n := hv
    exact ⟨hlen, by rw [hlen]; exact hv2⟩

/-- A sequence of navigation events with valid targets keeps the length of the image
list and leaves a valid index valid. -/
theorem NavEvent.run_index_lt (n : ℕ) (events : List NavEvent) (s : State)
    (hlen : s.images.length = n) (h : s.currentIndex < s.images.length)
    (hv : ∀ ev ∈ events, ev.valid n) :
    (NavEvent.run s events).images.length = n ∧
      (NavEvent.run s events).currentIndex < (NavEvent.run s events).images.length := by
  induction events generalizing s with
  | nil => exact ⟨hlen, h⟩
  | cons ev rest ih =>
    obtain ⟨h1, h2⟩ :=
      NavEvent.step_index_lt n s ev hlen h (hv ev (List.mem_cons_self _ _))
    exact ih (NavEvent.step s ev) h1 h2 (fun ev1 hev1 => hv ev1 (List.mem_cons_of_mem _ hev1))

/-- C30: for a non-empty image list loaded from the initial index 0, `currentIndex` is
a valid position after `loadAnnotationData`, and after any sequence of skips, saves
(whatever their outcome) and list clicks on valid entries it is still a valid position
of the list, whose length never changes. -/
theorem currentIndex_stays_valid (s0 : State) (data : AnnotationData)
    (events : List NavEvent) (h0 : s0.currentIndex = 0) (hne : data.images ≠ [])
    (hv : ∀ ev ∈ events, ev.valid data.images.length) :
    (loadAnnotationData s0 (some data)).currentIndex
      < (loadAnnotationData s0 (some data)).images.length ∧
    (NavEvent.run (loadAnnotationData s0 (some data)) events).currentIndex
      < (NavEvent.run (loadAnnotationData s0 (some data)) events).images.length ∧
    (NavEvent.run (loadAnnotationData s0 (some data)) events).images.length
      = data.images.length := by
  have hpos : 0 < data.images.length := List.length_pos.mpr hne
  have hinit : (loadAnnotationData s0 (some data)).images.length = data.images.length ∧
      (loadAnnotationData s0 (some data)).currentIndex
        < (loadAnnotationData s0 (some data)).images.length := by
    cases hf : data.images.findIdx? (fun img => !img.has_annotation) with
    | none =>
      simp only [loadAnnotationData, hf, h0]
      exact ⟨trivial, hpos⟩
    | some i =>
      obtain ⟨hlt, _⟩ := List.findIdx?_eq_some_iff_getElem.mp hf
      simp only [loadAnnotationData, hf]
      exact ⟨trivial, hlt⟩
  obtain ⟨h1, h2⟩ :=
    NavEvent.run_index_lt data.images.length events _ hinit.1 hinit.2 hv
  exact ⟨hinit.2, h2, h1⟩

/-- Instance of `currentIndex_stays_valid`: the four images of `fourImagesExample`,
then a skip, a click on the last entry, a save and another skip. -/
theorem currentIndex_stays_valid_witness :
    (NavEvent.run (loadAnnotationData State.initial
        (some { images := fourImagesExample.images, annotated := 1 }))
        [NavEvent.skip, NavEvent.jump 3, NavEvent.save true, NavEvent.skip]).currentIndex
      < (NavEvent.run (loadAnnotationData State.initial
        (some { images := fourImagesExample.images, annotated := 1 }))
        [NavEvent.skip, NavEvent.jump 3, NavEvent.save true, NavEvent.skip]).images.length :=
  (currentIndex_stays_valid State.initial
    { images := fourImagesExample.images, annotated := 1 }
    [NavEvent.skip, NavEvent.jump 3, NavEvent.save true, NavEvent.skip] rfl
    (by simp [fourImagesExample, State.initial])
    (by
      intro ev hev
      simp only [List.mem_cons, List.mem_singleton, List.not_mem_nil, or_false] at hev
      rcases hev with h | h | h | h <;> rw [h] <;>
        simp [NavEvent.valid, fourImagesExample, State.initial])).2.1

/-! ## The pointer mapping in double precision -/

/-- The triangle inequality in the form used for error bounds. -/
theorem abs_le_abs_add_abs_sub (x y : ℚ) : |x| ≤ |y| + |x - y| := by
  have h := abs_add y (x - y)
  have e : y + (x - y) = x := by ring
  rw [e] at h
  exact h

/-- The quotient 800/928 rounded to binary64. -/
theorem div64_800_928 : div64 800 928 = 3882413471871117 / 4503599627370496 :=
  roundToDouble_eval _ _ (-1) (7764826943742234) (by norm_num)
    (by norm_num [abs_of_pos]) (by norm_num [abs_of_pos])
    (by rw [abs_lt]; norm_num) (by norm_num)

/-- The product of 928 and the binary64 scale 800/928 rounds to exactly 800. -/
theorem mul64_928_scale : mul64 928 (3882413471871117 / 4503599627370496) = 800 :=
  roundToDouble_eval _ _ (9) (7036874417766400) (by norm_num)
    (by norm_num [abs_of_pos]) (by norm_num [abs_of_pos])
    (by rw [abs_lt]; norm_num) (by norm_num)

/-- The product of 600 and the binary64 scale 800/928, rounded to binary64. -/
theorem mul64_600_scale :
    mul64 600 (3882413471871117 / 4503599627370496)
      = 4549703287348965 / 8796093022208 :=
  roundToDouble_eval _ _ (9) (4549703287348965) (by norm_num)
    (by norm_num [abs_of_pos]) (by norm_num [abs_of_pos])
    (by rw [abs_lt]; norm_num) (by norm_num)

/-- The difference of 600 and the scaled height is a binary64 number. -/
theorem sub64_600_scaled :
    sub64 600 (4549703287348965 / 8796093022208) = 727952525975835 / 8796093022208 :=
  roundToDouble_eval _ _ (6) (5823620207806680) (by norm_num)
    (by norm_num [abs_of_pos]) (by norm_num [abs_of_pos])
    (by rw [abs_lt]; norm_num) (by norm_num)

/-- Half of that difference is a binary64 number. -/
theorem div64_diff_928_2 :
    div64 (727952525975835 / 8796093022208) 2 = 727952525975835 / 17592186044416 :=
  roundToDouble_eval _ _ (5) (5823620207806680) (by norm_num)
    (by norm_num [abs_of_pos]) (by norm_num [abs_of_pos])
    (by rw [abs_lt]; norm_num) (by norm_num)

/-- The number 800 is a binary64 number. -/
theorem roundToDouble_800 : roundToDouble 800 = 800 :=
  roundToDouble_eval _ _ (9) (7036874417766400) (by norm_num)
    (by norm_num [abs_of_pos]) (by norm_num [abs_of_pos])
    (by rw [abs_lt]; norm_num) (by norm_num)

/-- The quotient of 800 and the binary64 scale 800/928 rounds to the binary64 number
just above 928. -/
theorem div64_800_scale :
    div64 800 (3882413471871117 / 4503599627370496)
      = 8162774324609025 / 8796093022208 :=
  roundToDouble_eval _ _ (9) (8162774324609025) (by norm_num)
    (by norm_num [abs_of_pos]) (by norm_num [abs_of_pos])
    (by rw [abs_lt]; norm_num) (by norm_num)

/-- The state `wideExample` spelled out: scale `800/928` in binary64, no horizontal
offset. -/
theorem wideExample_eq :
    wideExample =
      { State.initial with
        currentImage := some { width := 928, height := 600 }
        scale := 3882413471871117 / 4503599627370496
        offset := { x := 0, y := 727952525975835 / 17592186044416 } } := by
  have hs : min (min (3882413471871117 / 4503599627370496 : ℚ) 1) 1
      = 3882413471871117 / 4503599627370496 := by
    rw [min_eq_left (by norm_num), min_eq_left (by norm_num)]
  have h0 : div64 (sub64 800 800) 2 = 0 := by
    simp [div64, sub64, roundToDouble_zero]
  simp only [wideExample, loadImage.onload64, div64_800_928, div64_600_600, hs,
    mul64_928_scale, mul64_600_scale, sub64_600_scaled, div64_diff_928_2, h0,
    State.initial]

/-- C9 fails on the code: on `wideExample` the right border `x = 928` of the image is
drawn at the canvas position 800, and a press at that position is mapped back to
`928 + 2^-43`, which is not 928 and lies outside the image, so `handleMouseDown` leaves
the state as it was instead of starting a gesture at the border. -/
theorem imagePoint64_of_drawn_border_is_outside :
    wideExample.currentImage = some { width := 928, height := 600 } ∧
    (canvasPoint64 wideExample { x := 928, y := 0 }).x = 800 ∧
    (imagePoint64 wideExample { left := 0, top := 0 }
        { clientX := 800, clientY := 727952525975835 / 17592186044416 }).x
      = 928 + 1 / 8796093022208 ∧
    (imagePoint64 wideExample { left := 0, top := 0 }
        { clientX := 800, clientY := 727952525975835 / 17592186044416 }).x ≠ 928 ∧
    handleMouseDown64 wideExample { left := 0, top := 0 }
        { clientX := 800, clientY := 727952525975835 / 17592186044416 }
      = .ok wideExample := by
  have hx : (imagePoint64 wideExample { left := 0, top := 0 }
        { clientX := 800, clientY := 727952525975835 / 17592186044416 }).x
      = 928 + 1 / 8796093022208 := by
    rw [wideExample_eq]
    simp only [imagePoint64, State.initial, sub64, sub_zero, roundToDouble_800]
    rw [div64_800_scale]
    norm_num
  refine ⟨?_, ?_, hx, ?_, ?_⟩
  · rw [wideExample_eq]
  · rw [wideExample_eq]
    simp only [canvasPoint64, State.initial, mul64_928_scale, add64, zero_add,
      roundToDouble_800]
  · rw [hx]
    norm_num
  · have hge : (imagePoint64 wideExample { left := 0, top := 0 }
        { clientX := 800, clientY := 727952525975835 / 17592186044416 }).x ≥ 0 := by
      rw [hx]
      norm_num
    have hgt : ¬ ((imagePoint64 wideExample { left := 0, top := 0 }
        { clientX := 800, clientY := 727952525975835 / 17592186044416 }).x ≤ 928) := by
      rw [hx]
      norm_num
    have hi : wideExample.currentImage = some { width := 928, height := 600 } := by
      rw [wideExample_eq]
    simp only [handleMouseDown64, hge, hi, hgt, if_true, false_and, if_false]

/-- One axis of the way image to canvas to image in binary64: the point read back
differs from the original by at most the stated rounding margin. -/
theorem roundtrip_image64 (o k x : ℚ) (hk0 : 0 < k) (hk1 : k ≤ 1) :
    |div64 (sub64 (add64 o (mul64 x k)) o) k - x| * k
      ≤ (|x| * k + |o|) / 2 ^ 50 + 1 / 2 ^ 97 := by
  have e1 := roundToDouble_err_coarse (x * k)
  have e2 := roundToDouble_err_coarse (o + mul64 x k)
  have e3 := roundToDouble_err_coarse (add64 o (mul64 x k) - o)
  have e4 := roundToDouble_err_coarse (sub64 (add64 o (mul64 x k)) o / k)
  have hxk : |x * k| = |x| * k := by rw [abs_mul, abs_of_pos hk0]
  have hFk : |sub64 (add64 o (mul64 x k)) o / k| = |sub64 (add64 o (mul64 x k)) o| / k := by
    rw [abs_div, abs_of_pos hk0]
  rw [hxk] at e1
  rw [hFk] at e4
  have e4k : |div64 (sub64 (add64 o (mul64 x k)) o) k - sub64 (add64 o (mul64 x k)) o / k| * k
      ≤ |sub64 (add64 o (mul64 x k)) o| / 9007199254740992
        + 1 / 1267650600228229401496703205376 := by
    have h := mul_le_mul_of_nonneg_right e4 hk0.le
    have hc : (|sub64 (add64 o (mul64 x k)) o| / k / 9007199254740992
        + 1 / 1267650600228229401496703205376) * k
        = |sub64 (add64 o (mul64 x k)) o| / 9007199254740992
          + k / 1267650600228229401496703205376 := by
      field_simp
      ring
    rw [hc] at h
    have : k / 1267650600228229401496703205376 ≤ 1 / 1267650600228229401496703205376 :=
      div_le_div_of_nonneg_right hk1 (by norm_num)
    unfold div64
    linarith
  have t1 : |mul64 x k| ≤ |x| * k + |mul64 x k - x * k| := by
    have := abs_le_abs_add_abs_sub (mul64 x k) (x * k)
    rw [hxk] at this
    exact this
  have t2 : |o + mul64 x k| ≤ |o| + |mul64 x k| := abs_add _ _
  have t3 : |add64 o (mul64 x k) - o|
      ≤ |mul64 x k| + |add64 o (mul64 x k) - (o + mul64 x k)| := by
    have h := abs_add (mul64 x k) (add64 o (mul64 x k) - (o + mul64 x k))
    have e : mul64 x k + (add64 o (mul64 x k) - (o + mul64 x k))
        = add64 o (mul64 x k) - o := by ring
    rw [e] at h
    exact h
  have t4 : |sub64 (add64 o (mul64 x k)) o|
      ≤ |add64 o (mul64 x k) - o|
        + |sub64 (add64 o (mul64 x k)) o - (add64 o (mul64 x k) - o)| :=
    abs_le_abs_add_abs_sub _ _
  have t5 : |div64 (sub64 (add64 o (mul64 x k)) o) k - x| * k
      ≤ |div64 (sub64 (add64 o (mul64 x k)) o) k - sub64 (add64 o (mul64 x k)) o / k| * k
        + (|sub64 (add64 o (mul64 x k)) o - (add64 o (mul64 x k) - o)|
          + |add64 o (mul64 x k) - (o + mul64 x k)| + |mul64 x k - x * k|) := by
    have hsplit : (div64 (sub64 (add64 o (mul64 x k)) o) k - x) * k
        = (div64 (sub64 (add64 o (mul64 x k)) o) k - sub64 (add64 o (mul64 x k)) o / k) * k
          + ((sub64 (add64 o (mul64 x k)) o - (add64 o (mul64 x k) - o))
            + (add64 o (mul64 x k) - (o + mul64 x k)) + (mul64 x k - x * k)) := by
      field_simp
      ring
    have hl : |div64 (sub64 (add64 o (mul64 x k)) o) k - x| * k
        = |(div64 (sub64 (add64 o (mul64 x k)) o) k - x) * k| := by
      rw [abs_mul, abs_of_pos hk0]
    have hr : |div64 (sub64 (add64 o (mul64 x k)) o) k
          - sub64 (add64 o (mul64 x k)) o / k| * k
        = |(div64 (sub64 (add64 o (mul64 x k)) o) k
          - sub64 (add64 o (mul64 x k)) o / k) * k| := by
      rw [abs_mul, abs_of_pos hk0]
    rw [hl, hr, hsplit]
    have a1 := abs_add
      ((div64 (sub64 (add64 o (mul64 x k)) o) k - sub64 (add64 o (mul64 x k)) o / k) * k)
      ((sub64 (add64 o (mul64 x k)) o - (add64 o (mul64 x k) - o))
        + (add64 o (mul64 x k) - (o + mul64 x k)) + (mul64 x k - x * k))
    have a2 := abs_add
      ((sub64 (add64 o (mul64 x k)) o - (add64 o (mul64 x k) - o))
        + (add64 o (mul64 x k) - (o + mul64 x k))) (mul64 x k - x * k)
    have a3 := abs_add (sub64 (add64 o (mul64 x k)) o - (add64 o (mul64 x k) - o))
      (add64 o (mul64 x k) - (o + mul64 x k))
    linarith
  have n1 : 0 ≤ |x| * k := mul_nonneg (abs_nonneg _) hk0.le
  have n2 : 0 ≤ |o| := abs_nonneg _
  change |mul64 x k - x * k| ≤ _ at e1
  change |add64 o (mul64 x k) - (o + mul64 x k)| ≤ _ at e2
  change |sub64 (add64 o (mul64 x k)) o - (add64 o (mul64 x k) - o)| ≤ _ at e3
  norm_num at e1 e2 e3 e4k ⊢
  linarith

/-- One axis of the way canvas to image to canvas in binary64: the position placed
back differs from the original by at most the stated rounding margin. -/
theorem roundtrip_canvas64 (o k c : ℚ) (hk0 : 0 < k) (hk1 : k ≤ 1) :
    |add64 o (mul64 (div64 (sub64 c o) k) k) - c|
      ≤ (|c| + |o|) / 2 ^ 50 + 1 / 2 ^ 97 := by
  have e1 := roundToDouble_err_coarse (c - o)
  have e2 := roundToDouble_err_coarse (sub64 c o / k)
  have e3 := roundToDouble_err_coarse (div64 (sub64 c o) k * k)
  have e4 := roundToDouble_err_coarse (o + mul64 (div64 (sub64 c o) k) k)
  have hFk : |sub64 c o / k| = |sub64 c o| / k := by
    rw [abs_div, abs_of_pos hk0]
  rw [hFk] at e2
  have hxk : |div64 (sub64 c o) k * k| = |div64 (sub64 c o) k| * k := by
    rw [abs_mul, abs_of_pos hk0]
  have e2k : |div64 (sub64 c o) k * k - sub64 c o|
      ≤ |sub64 c o| / 9007199254740992 + 1 / 1267650600228229401496703205376 := by
    have h := mul_le_mul_of_nonneg_right e2 hk0.le
    have hc : (|sub64 c o| / k / 9007199254740992
        + 1 / 1267650600228229401496703205376) * k
        = |sub64 c o| / 9007199254740992 + k / 1267650600228229401496703205376 := by
      field_simp
      ring
    rw [hc] at h
    have hk : k / 1267650600228229401496703205376 ≤ 1 / 1267650600228229401496703205376 :=
      div_le_div_of_nonneg_right hk1 (by norm_num)
    have hl : |roundToDouble (sub64 c o / k) - sub64 c o / k| * k
        = |div64 (sub64 c o) k * k - sub64 c o| := by
      have hm : (roundToDouble (sub64 c o / k) - sub64 c o / k) * k
          = div64 (sub64 c o) k * k - sub64 c o := by
        unfold div64
        field_simp
      rw [← hm, abs_mul, abs_of_pos hk0]
    rw [hl] at h
    linarith
  have t0 : |c - o| ≤ |c| + |o| := abs_sub c o
  have t1 : |sub64 c o| ≤ |c - o| + |sub64 c o - (c - o)| := abs_le_abs_add_abs_sub _ _
  have t2 : |div64 (sub64 c o) k * k|
      ≤ |sub64 c o| + |div64 (sub64 c o) k * k - sub64 c o| :=
    abs_le_abs_add_abs_sub _ _
  have t3 : |mul64 (div64 (sub64 c o) k) k|
      ≤ |div64 (sub64 c o) k * k|
        + |mul64 (div64 (sub64 c o) k) k - div64 (sub64 c o) k * k| :=
    abs_le_abs_add_abs_sub _ _
  have t4 : |o + mul64 (div64 (sub64 c o) k) k|
      ≤ |o| + |mul64 (div64 (sub64 c o) k) k| := abs_add _ _
  have t5 : |add64 o (mul64 (div64 (sub64 c o) k) k) - c|
      ≤ |add64 o (mul64 (div64 (sub64 c o) k) k) - (o + mul64 (div64 (sub64 c o) k) k)|
        + (|mul64 (div64 (sub64 c o) k) k - div64 (sub64 c o) k * k|
          + |div64 (sub64 c o) k * k - sub64 c o| + |sub64 c o - (c - o)|) := by
    have hsplit : add64 o (mul64 (div64 (sub64 c o) k) k) - c
        = (add64 o (mul64 (div64 (sub64 c o) k) k) - (o + mul64 (div64 (sub64 c o) k) k))
          + ((mul64 (div64 (sub64 c o) k) k - div64 (sub64 c o) k * k)
            + (div64 (sub64 c o) k * k - sub64 c o) + (sub64 c o - (c - o))) := by
      ring
    rw [hsplit]
    have a1 := abs_add
      (add64 o (mul64 (div64 (sub64 c o) k) k) - (o + mul64 (div64 (sub64 c o) k) k))
      ((mul64 (div64 (sub64 c o) k) k - div64 (sub64 c o) k * k)
        + (div64 (sub64 c o) k * k - sub64 c o) + (sub64 c o - (c - o)))
    have a2 := abs_add
      ((mul64 (div64 (sub64 c o) k) k - div64 (sub64 c o) k * k)
        + (div64 (sub64 c o) k * k - sub64 c o)) (sub64 c o - (c - o))
    have a3 := abs_add (mul64 (div64 (sub64 c o) k) k - div64 (sub64 c o) k * k)
      (div64 (sub64 c o) k * k - sub64 c o)
    linarith
  have n1 : 0 ≤ |c| := abs_nonneg _
  have n2 : 0 ≤ |o| := abs_nonneg _
  change |sub64 c o - (c - o)| ≤ _ at e1
  change |mul64 (div64 (sub64 c o) k) k - div64 (sub64 c o) k * k| ≤ _ at e3
  change |add64 o (mul64 (div64 (sub64 c o) k) k)
    - (o + mul64 (div64 (sub64 c o) k) k)| ≤ _ at e4
  norm_num at e1 e2k e3 e4 ⊢
  linarith

/-- The binary64 number stored as vertical offset of `wideExample`. -/
theorem roundToDouble_offset_928 :
    roundToDouble (727952525975835 / 17592186044416) = 727952525975835 / 17592186044416 :=
  roundToDouble_eval _ _ (5) (5823620207806680) (by norm_num)
    (by norm_num [abs_of_pos]) (by norm_num [abs_of_pos])
    (by rw [abs_lt]; norm_num) (by norm_num)

/-- C9 as amended: for a transform with `2^-32 ≤ scale ≤ 1` and offsets of magnitude
at most `2^32`, the placement used by `drawCanvas` and the pointer mapping of the
handlers, both computed in binary64 on coordinates of magnitude at most `2^32`, are
inverse to each other up to rounding.  An image point `x` placed on the canvas and read
back by the pointer mapping gives `x1` with
`|x1 - x| * scale ≤ (|x| * scale + |offset|) / 2^50 + 2^-97`, and a canvas position
`c` read as an image point and placed back gives `c1` with
`|c1 - c| ≤ (|c| + |offset|) / 2^50 + 2^-97`; the same holds on the other axis.  The
point read back need not lie inside the image again. -/
theorem canvasPoint64_imagePoint64_inverse_up_to_rounding (s : State) (rect : DOMRect)
    (_hlow : 1 / 4294967296 ≤ s.scale) (hscale : 0 < s.scale) (hle : s.scale ≤ 1)
    (_hox : |s.offset.x| ≤ 4294967296) (_hoy : |s.offset.y| ≤ 4294967296)
    (_hleft : |rect.left| ≤ 4294967296) (_htop : |rect.top| ≤ 4294967296) :
    (∀ (p : Pos) (e : MouseEvent),
      |p.x| ≤ 4294967296 → |p.y| ≤ 4294967296 →
      |e.clientX| ≤ 4294967296 → |e.clientY| ≤ 4294967296 →
      sub64 e.clientX rect.left = (canvasPoint64 s p).x →
      sub64 e.clientY rect.top = (canvasPoint64 s p).y →
      |(imagePoint64 s rect e).x - p.x| * s.scale
          ≤ (|p.x| * s.scale + |s.offset.x|) / 2 ^ 50 + 1 / 2 ^ 97 ∧
        |(imagePoint64 s rect e).y - p.y| * s.scale
          ≤ (|p.y| * s.scale + |s.offset.y|) / 2 ^ 50 + 1 / 2 ^ 97) ∧
    (∀ e : MouseEvent,
      |e.clientX| ≤ 4294967296 → |e.clientY| ≤ 4294967296 →
      |(canvasPoint64 s (imagePoint64 s rect e)).x - sub64 e.clientX rect.left|
          ≤ (|sub64 e.clientX rect.left| + |s.offset.x|) / 2 ^ 50 + 1 / 2 ^ 97 ∧
        |(canvasPoint64 s (imagePoint64 s rect e)).y - sub64 e.clientY rect.top|
          ≤ (|sub64 e.clientY rect.top| + |s.offset.y|) / 2 ^ 50 + 1 / 2 ^ 97) := by
  constructor
  · intro p e _ _ _ _ hx hy
    simp only [imagePoint64, canvasPoint64] at hx hy ⊢
    rw [hx, hy]
    exact ⟨roundtrip_image64 _ _ _ hscale hle, roundtrip_image64 _ _ _ hscale hle⟩
  · intro e _ _
    simp only [imagePoint64, canvasPoint64]
    exact ⟨roundtrip_canvas64 _ _ _ hscale hle, roundtrip_canvas64 _ _ _ hscale hle⟩

/-- Instance of `canvasPoint64_imagePoint64_inverse_up_to_rounding`: on `wideExample`
the press at the drawn right border of the image comes back within the margin. -/
theorem canvasPoint64_imagePoint64_inverse_up_to_rounding_witness :
    |(canvasPoint64 wideExample
        (imagePoint64 wideExample { left := 0, top := 0 }
          { clientX := 800, clientY := 727952525975835 / 17592186044416 })).x
        - sub64 800 0|
      ≤ (|sub64 800 0| + |wideExample.offset.x|) / 2 ^ 50 + 1 / 2 ^ 97 :=
  ((canvasPoint64_imagePoint64_inverse_up_to_rounding wideExample { left := 0, top := 0 }
    (by rw [wideExample_eq]; norm_num) (by rw [wideExample_eq]; norm_num)
    (by rw [wideExample_eq]; norm_num)
    (by rw [wideExample_eq]; norm_num) (by rw [wideExample_eq]; norm_num [abs_of_pos])
    (by norm_num) (by norm_num)).2
    { clientX := 800, clientY := 727952525975835 / 17592186044416 }
    (by norm_num [abs_of_pos]) (by norm_num [abs_of_pos])).1

/-! ## The round trip of the conversion in double precision -/

/-- The number 50 is a binary64 number. -/
theorem roundToDouble_50 : roundToDouble 50 = 50 :=
  roundToDouble_eval _ _ (5) (7036874417766400) (by norm_num)
    (by norm_num [abs_of_pos]) (by norm_num [abs_of_pos])
    (by rw [abs_lt]; norm_num) (by norm_num)

/-- The number 100 is a binary64 number. -/
theorem roundToDouble_100 : roundToDouble 100 = 100 :=
  roundToDouble_eval _ _ (6) (7036874417766400) (by norm_num)
    (by norm_num [abs_of_pos]) (by norm_num [abs_of_pos])
    (by rw [abs_lt]; norm_num) (by norm_num)

/-- The sum of `2^-60` and 50 rounds to 50: the small term is lost. -/
theorem add64_small_50 : add64 (1 / 1152921504606846976) 50 = 50 :=
  roundToDouble_eval _ _ (5) (7036874417766400) (by norm_num)
    (by norm_num [abs_of_pos]) (by norm_num [abs_of_pos])
    (by rw [abs_lt]; norm_num) (by norm_num)

/-- The quotient 50/640 is the binary64 number 5/64. -/
theorem div64_50_640 : div64 50 640 = 5 / 64 :=
  roundToDouble_eval _ _ (-4) (5629499534213120) (by norm_num)
    (by norm_num [abs_of_pos]) (by norm_num [abs_of_pos])
    (by rw [abs_lt]; norm_num) (by norm_num)

/-- The quotient 100/640 is the binary64 number 5/32. -/
theorem div64_100_640 : div64 100 640 = 5 / 32 :=
  roundToDouble_eval _ _ (-3) (5629499534213120) (by norm_num)
    (by norm_num [abs_of_pos]) (by norm_num [abs_of_pos])
    (by rw [abs_lt]; norm_num) (by norm_num)

/-- C3 fails on the code in floating point: for the box
`{x: 2^-60, y: 0, width: 100, height: 100}` on a 640 by 640 image the binary64 sum
`x + width/2` is 50, so the conversion followed by `fromNormalized` returns `x = 0`,
which is not within a relative tolerance of `1e-6` of `2^-60`; and the box with
`x = 0` has the same normalized form, so the conversion is not injective. -/
theorem fromNormalized64_yoloBoxes64_loses_small_x :
    (yoloBoxes64
        [{ x := 1 / 1152921504606846976, y := 0, width := 100, height := 100, class_id := 0 }]
        { width := 640, height := 640 }).map (fun n => fromNormalized64 n 640 640)
      = [{ x := 0, y := 0, width := 100, height := 100, class_id := 0 }] ∧
    ¬ (|(0 : ℚ) - 1 / 1152921504606846976|
        ≤ 1 / 1000000 * |(1 / 1152921504606846976 : ℚ)|) ∧
    yoloBoxes64
        [{ x := 1 / 1152921504606846976, y := 0, width := 100, height := 100, class_id := 0 }]
        { width := 640, height := 640 }
      = yoloBoxes64 [{ x := 0, y := 0, width := 100, height := 100, class_id := 0 }]
        { width := 640, height := 640 } ∧
    ({ x := 1 / 1152921504606846976, y := 0, width := 100, height := 100, class_id := 0 } : Box)
      ≠ { x := 0, y := 0, width := 100, height := 100, class_id := 0 } := by
  have h1 : div64 100 2 = 50 := by
    have e : (100 : ℚ) / 2 = 50 := by norm_num
    simp only [div64, e, roundToDouble_50]
  have h2 : add64 0 50 = 50 := by
    simp only [add64, zero_add, roundToDouble_50]
  have h3 : mul64 (5 / 64) 640 = 50 := by
    have e : (5 : ℚ) / 64 * 640 = 50 := by norm_num
    simp only [mul64, e, roundToDouble_50]
  have h4 : mul64 (5 / 32) 640 = 100 := by
    have e : (5 : ℚ) / 32 * 640 = 100 := by norm_num
    simp only [mul64, e, roundToDouble_100]
  have h5 : sub64 50 50 = 0 := by
    simp only [sub64, sub_self, roundToDouble_zero]
  refine ⟨?_, ?_, ?_, ?_⟩
  · simp only [yoloBoxes64, fromNormalized64, List.map_cons, List.map_nil, h1,
      add64_small_50, h2, div64_50_640, div64_100_640, h3, h4, h5]
  · norm_num [abs_of_pos]
  · simp only [yoloBoxes64, List.map_cons, List.map_nil, h1, add64_small_50, h2]
  · intro h
    have hx := congrArg Box.x h
    norm_num at hx

/-- A binary64 quotient multiplied back exactly differs from the dividend by the
rounding error of the division scaled by the divisor. -/
theorem div64_mul_err (a w : ℚ) (hw : 0 < w) :
    |div64 a w * w - a|
      ≤ |a| / 9007199254740992 + w / 1267650600228229401496703205376 := by
  have e := roundToDouble_err_coarse (a / w)
  have ha : |a / w| = |a| / w := by rw [abs_div, abs_of_pos hw]
  rw [ha] at e
  have h := mul_le_mul_of_nonneg_right e hw.le
  have hc : (|a| / w / 9007199254740992 + 1 / 1267650600228229401496703205376) * w
      = |a| / 9007199254740992 + w / 1267650600228229401496703205376 := by
    field_simp
    ring
  rw [hc] at h
  have hl : |div64 a w * w - a| = |roundToDouble (a / w) - a / w| * w := by
    have e2 : div64 a w * w - a = (roundToDouble (a / w) - a / w) * w := by
      unfold div64
      field_simp
    rw [e2, abs_mul, abs_of_pos hw]
  rw [hl]
  exact h

/-- The side of a box through the binary64 conversion and back: the side returned
differs from the original by at most the stated rounding margin. -/
theorem roundtrip_side64 (d w : ℚ) (hw1 : 1 ≤ w) (hw2 : w ≤ 2147483648) :
    |mul64 (div64 d w) w - d| ≤ |d| / 2 ^ 50 + 1 / 2 ^ 60 := by
  have hw0 : (0 : ℚ) < w := by linarith
  have e1 := div64_mul_err d w hw0
  have e2 := roundToDouble_err_coarse (div64 d w * w)
  change |mul64 (div64 d w) w - div64 d w * w| ≤ _ at e2
  have t1 : |div64 d w * w| ≤ |d| + |div64 d w * w - d| :=
    abs_le_abs_add_abs_sub _ _
  have t2 : |mul64 (div64 d w) w - d|
      ≤ |mul64 (div64 d w) w - div64 d w * w| + |div64 d w * w - d| := by
    have h := abs_add (mul64 (div64 d w) w - div64 d w * w) (div64 d w * w - d)
    have e : mul64 (div64 d w) w - div64 d w * w + (div64 d w * w - d)
        = mul64 (div64 d w) w - d := by ring
    rw [e] at h
    exact h
  have n1 : 0 ≤ |d| := abs_nonneg _
  norm_num at e1 e2 ⊢
  linarith

/-- The corner of a box through the binary64 conversion and back: the coordinate
returned differs from the original by at most the stated rounding margin. -/
theorem roundtrip_corner64 (x d w : ℚ) (hw1 : 1 ≤ w) (hw2 : w ≤ 2147483648) :
    |sub64 (mul64 (div64 (add64 x (div64 d 2)) w) w) (div64 (mul64 (div64 d w) w) 2) - x|
      ≤ (|x| + |d|) / 2 ^ 50 + 1 / 2 ^ 60 := by
  have hw0 : (0 : ℚ) < w := by linarith
  have eh := roundToDouble_err_coarse (d / 2)
  change |div64 d 2 - d / 2| ≤ _ at eh
  have es := roundToDouble_err_coarse (x + div64 d 2)
  change |add64 x (div64 d 2) - (x + div64 d 2)| ≤ _ at es
  have ec := div64_mul_err (add64 x (div64 d 2)) w hw0
  have ep := roundToDouble_err_coarse (div64 (add64 x (div64 d 2)) w * w)
  change |mul64 (div64 (add64 x (div64 d 2)) w) w - div64 (add64 x (div64 d 2)) w * w| ≤ _
    at ep
  have eq := roundtrip_side64 d w hw1 hw2
  have er := roundToDouble_err_coarse (mul64 (div64 d w) w / 2)
  change |div64 (mul64 (div64 d w) w) 2 - mul64 (div64 d w) w / 2| ≤ _ at er
  have ex := roundToDouble_err_coarse
    (mul64 (div64 (add64 x (div64 d 2)) w) w - div64 (mul64 (div64 d w) w) 2)
  change |sub64 (mul64 (div64 (add64 x (div64 d 2)) w) w) (div64 (mul64 (div64 d w) w) 2)
      - (mul64 (div64 (add64 x (div64 d 2)) w) w - div64 (mul64 (div64 d w) w) 2)| ≤ _ at ex
  have hd2 : |d / 2| = |d| / 2 := by rw [abs_div, abs_of_pos (by norm_num : (0 : ℚ) < 2)]
  have hq2 : |mul64 (div64 d w) w / 2| = |mul64 (div64 d w) w| / 2 := by
    rw [abs_div, abs_of_pos (by norm_num : (0 : ℚ) < 2)]
  rw [hd2] at eh
  rw [hq2] at er
  -- magnitudes
  have m1 : |div64 d 2| ≤ |d| / 2 + |div64 d 2 - d / 2| := by
    have h := abs_le_abs_add_abs_sub (div64 d 2) (d / 2)
    rw [hd2] at h
    exact h
  have m2 : |x + div64 d 2| ≤ |x| + |div64 d 2| := abs_add _ _
  have m3 : |add64 x (div64 d 2)|
      ≤ |x + div64 d 2| + |add64 x (div64 d 2) - (x + div64 d 2)| :=
    abs_le_abs_add_abs_sub _ _
  have m4 : |div64 (add64 x (div64 d 2)) w * w|
      ≤ |add64 x (div64 d 2)| + |div64 (add64 x (div64 d 2)) w * w - add64 x (div64 d 2)| :=
    abs_le_abs_add_abs_sub _ _
  have m5 : |mul64 (div64 (add64 x (div64 d 2)) w) w|
      ≤ |div64 (add64 x (div64 d 2)) w * w|
        + |mul64 (div64 (add64 x (div64 d 2)) w) w - div64 (add64 x (div64 d 2)) w * w| :=
    abs_le_abs_add_abs_sub _ _
  have m6 : |mul64 (div64 d w) w| ≤ |d| + |mul64 (div64 d w) w - d| :=
    abs_le_abs_add_abs_sub _ _
  have m7 : |div64 (mul64 (div64 d w) w) 2|
      ≤ |mul64 (div64 d w) w| / 2
        + |div64 (mul64 (div64 d w) w) 2 - mul64 (div64 d w) w / 2| := by
    have h := abs_le_abs_add_abs_sub (div64 (mul64 (div64 d w) w) 2)
      (mul64 (div64 d w) w / 2)
    rw [hq2] at h
    exact h
  have m8 : |mul64 (div64 (add64 x (div64 d 2)) w) w - div64 (mul64 (div64 d w) w) 2|
      ≤ |mul64 (div64 (add64 x (div64 d 2)) w) w| + |div64 (mul64 (div64 d w) w) 2| :=
    abs_sub _ _
  -- the difference as a sum of the single errors
  have hsplit :
      sub64 (mul64 (div64 (add64 x (div64 d 2)) w) w) (div64 (mul64 (div64 d w) w) 2) - x
        = (sub64 (mul64 (div64 (add64 x (div64 d 2)) w) w)
              (div64 (mul64 (div64 d w) w) 2)
            - (mul64 (div64 (add64 x (div64 d 2)) w) w - div64 (mul64 (div64 d w) w) 2))
          + ((mul64 (div64 (add64 x (div64 d 2)) w) w
              - div64 (add64 x (div64 d 2)) w * w)
          + ((div64 (add64 x (div64 d 2)) w * w - add64 x (div64 d 2))
          + ((add64 x (div64 d 2) - (x + div64 d 2))
          + ((div64 d 2 - d / 2)
          + (-(div64 (mul64 (div64 d w) w) 2 - mul64 (div64 d w) w / 2)
          + -((mul64 (div64 d w) w - d) / 2)))))) := by
    ring
  have a1 := abs_add
    (sub64 (mul64 (div64 (add64 x (div64 d 2)) w) w) (div64 (mul64 (div64 d w) w) 2)
      - (mul64 (div64 (add64 x (div64 d 2)) w) w - div64 (mul64 (div64 d w) w) 2))
    ((mul64 (div64 (add64 x (div64 d 2)) w) w - div64 (add64 x (div64 d 2)) w * w)
      + ((div64 (add64 x (div64 d 2)) w * w - add64 x (div64 d 2))
      + ((add64 x (div64 d 2) - (x + div64 d 2))
      + ((div64 d 2 - d / 2)
      + (-(div64 (mul64 (div64 d w) w) 2 - mul64 (div64 d w) w / 2)
      + -((mul64 (div64 d w) w - d) / 2))))))
  have a2 := abs_add
    (mul64 (div64 (add64 x (div64 d 2)) w) w - div64 (add64 x (div64 d 2)) w * w)
    ((div64 (add64 x (div64 d 2)) w * w - add64 x (div64 d 2))
      + ((add64 x (div64 d 2) - (x + div64 d 2))
      + ((div64 d 2 - d / 2)
      + (-(div64 (mul64 (div64 d w) w) 2 - mul64 (div64 d w) w / 2)
      + -((mul64 (div64 d w) w - d) / 2)))))
  have a3 := abs_add
    (div64 (add64 x (div64 d 2)) w * w - add64 x (div64 d 2))
    ((add64 x (div64 d 2) - (x + div64 d 2))
      + ((div64 d 2 - d / 2)
      + (-(div64 (mul64 (div64 d w) w) 2 - mul64 (div64 d w) w / 2)
      + -((mul64 (div64 d w) w - d) / 2))))
  have a4 := abs_add
    (add64 x (div64 d 2) - (x + div64 d 2))
    ((div64 d 2 - d / 2)
      + (-(div64 (mul64 (div64 d w) w) 2 - mul64 (div64 d w) w / 2)
      + -((mul64 (div64 d w) w - d) / 2)))
  have a5 := abs_add
    (div64 d 2 - d / 2)
    (-(div64 (mul64 (div64 d w) w) 2 - mul64 (div64 d w) w / 2)
      + -((mul64 (div64 d w) w - d) / 2))
  have a6 := abs_add
    (-(div64 (mul64 (div64 d w) w) 2 - mul64 (div64 d w) w / 2))
    (-((mul64 (div64 d w) w - d) / 2))
  have a7 : |-(div64 (mul64 (div64 d w) w) 2 - mul64 (div64 d w) w / 2)|
      = |div64 (mul64 (div64 d w) w) 2 - mul64 (div64 d w) w / 2| := abs_neg _
  have a8 : |-((mul64 (div64 d w) w - d) / 2)| = |mul64 (div64 d w) w - d| / 2 := by
    rw [abs_neg, abs_div, abs_of_pos (by norm_num : (0 : ℚ) < 2)]
  have tsum :
      |sub64 (mul64 (div64 (add64 x (div64 d 2)) w) w) (div64 (mul64 (div64 d w) w) 2) - x|
        ≤ |sub64 (mul64 (div64 (add64 x (div64 d 2)) w) w)
              (div64 (mul64 (div64 d w) w) 2)
            - (mul64 (div64 (add64 x (div64 d 2)) w) w - div64 (mul64 (div64 d w) w) 2)|
          + |mul64 (div64 (add64 x (div64 d 2)) w) w - div64 (add64 x (div64 d 2)) w * w|
          + |div64 (add64 x (div64 d 2)) w * w - add64 x (div64 d 2)|
          + |add64 x (div64 d 2) - (x + div64 d 2)|
          + |div64 d 2 - d / 2|
          + |div64 (mul64 (div64 d w) w) 2 - mul64 (div64 d w) w / 2|
          + |mul64 (div64 d w) w - d| / 2 := by
    rw [hsplit]
    linarith
  have n1 : 0 ≤ |x| := abs_nonneg _
  have n2 : 0 ≤ |d| := abs_nonneg _
  norm_num at eh es ec ep eq er ex ⊢
  linarith

/-- C3 as amended: for an image whose sides lie between 1 and `2^31`, in exact
arithmetic `fromNormalized` applied to the output of `yoloBoxes` returns the original
boxes, so the conversion is injective there; in binary64 the conversion followed by
`fromNormalized64` keeps the class of a box with coordinates of magnitude at most
`2^32` and returns each coordinate within a margin made of a part relative to the
box and an absolute part: `|x1 - x| ≤ (|x| + |width|) / 2^50 + 2^-60` for a corner
and `|width1 - width| ≤ |width| / 2^50 + 2^-60` for a side.  The error of a corner
is not relative to the corner itself, and the binary64 conversion is not injective. -/
theorem fromNormalized64_yoloBoxes64_roundtrip_up_to_rounding (img : HTMLImage)
    (hw1 : 1 ≤ img.width) (hw2 : img.width ≤ 2147483648)
    (hh1 : 1 ≤ img.height) (hh2 : img.height ≤ 2147483648) :
    (∀ boxes : List Box,
      (yoloBoxes boxes img).map (fun n => fromNormalized n img.width img.height) = boxes) ∧
    Function.Injective (fun boxes : List Box => yoloBoxes boxes img) ∧
    (∀ b : Box, |b.x| ≤ 4294967296 → |b.y| ≤ 4294967296 →
      |b.width| ≤ 4294967296 → |b.height| ≤ 4294967296 →
      ∃ r : Box,
        (yoloBoxes64 [b] img).map (fun n => fromNormalized64 n img.width img.height) = [r] ∧
        r.class_id = b.class_id ∧
        |r.x - b.x| ≤ (|b.x| + |b.width|) / 2 ^ 50 + 1 / 2 ^ 60 ∧
        |r.y - b.y| ≤ (|b.y| + |b.height|) / 2 ^ 50 + 1 / 2 ^ 60 ∧
        |r.width - b.width| ≤ |b.width| / 2 ^ 50 + 1 / 2 ^ 60 ∧
        |r.height - b.height| ≤ |b.height| / 2 ^ 50 + 1 / 2 ^ 60) := by
  have hex := fromNormalized_yoloBoxes_exact img (by linarith) (by linarith)
  refine ⟨hex.2.1, hex.2.2, ?_⟩
  intro b _ _ _ _
  refine ⟨_, rfl, rfl, ?_, ?_, ?_, ?_⟩
  · exact roundtrip_corner64 b.x b.width img.width hw1 hw2
  · exact roundtrip_corner64 b.y b.height img.height hh1 hh2
  · exact roundtrip_side64 b.width img.width hw1 hw2
  · exact roundtrip_side64 b.height img.height hh1 hh2

/-- Instance of `fromNormalized64_yoloBoxes64_roundtrip_up_to_rounding` on a 640 by
640 image and the box `{x: 2^-60, y: 0, width: 100, height: 100}`. -/
theorem fromNormalized64_yoloBoxes64_roundtrip_up_to_rounding_witness :
    ∃ r : Box,
      (yoloBoxes64
          [{ x := 1 / 1152921504606846976, y := 0, width := 100, height := 100,
             class_id := 0 }]
          { width := 640, height := 640 }).map (fun n => fromNormalized64 n 640 640) = [r] ∧
      r.class_id = 0 ∧
      |r.x - 1 / 1152921504606846976|
        ≤ (|(1 / 1152921504606846976 : ℚ)| + |(100 : ℚ)|) / 2 ^ 50 + 1 / 2 ^ 60 ∧
      |r.y - 0| ≤ (|(0 : ℚ)| + |(100 : ℚ)|) / 2 ^ 50 + 1 / 2 ^ 60 ∧
      |r.width - 100| ≤ |(100 : ℚ)| / 2 ^ 50 + 1 / 2 ^ 60 ∧
      |r.height - 100| ≤ |(100 : ℚ)| / 2 ^ 50 + 1 / 2 ^ 60 :=
  (fromNormalized64_yoloBoxes64_roundtrip_up_to_rounding { width := 640, height := 640 }
    (by norm_num) (by norm_num) (by norm_num) (by norm_num)).2.2
    { x := 1 / 1152921504606846976, y := 0, width := 100, height := 100, class_id := 0 }
    (by norm_num [abs_of_pos]) (by norm_num) (by norm_num [abs_of_pos])
    (by norm_num [abs_of_pos])

end Annotate
